import Mathlib

/-!
# Verification of the OCPP go client's message envelope and dispatch contract

This development shallowly embeds the repository's single component, the
message dispatcher of `client.go`, together with the wire encoding and
decoding it relies on (Go's `encoding/xml` marshalling of the fixed message
structs).  Machine integers of the Go code are modelled as `Int` with the
64-bit bounds made explicit where they matter; fallible operations return
`Option` or `Except`.

Layout: definitions first (wire layer, message shapes, client model), then
helper lemmas, then one theorem per claim.
-/

namespace Ocpp

/-! ## Characters and Go string helpers -/

/-- XML character range check, as in Go `encoding/xml`'s `isInCharacterRange`:
tab, LF, CR, and the scalar ranges 0x20-0xD7FF, 0xE000-0xFFFD, 0x10000-0x10FFFF. -/
def inCharacterRange (c : Char) : Bool :=
  let n := c.toNat
  n = 0x09 || n = 0x0A || n = 0x0D ||
    (0x20 ≤ n && n ≤ 0xD7FF) || (0xE000 ≤ n && n ≤ 0xFFFD) ||
    (0x10000 ≤ n && n ≤ 0x10FFFF)

def isAsciiLetter (c : Char) : Bool :=
  ('A' ≤ c && c ≤ 'Z') || ('a' ≤ c && c ≤ 'z')

def isDigitChar (c : Char) : Bool := '0' ≤ c && c ≤ '9'

/-- Characters accepted inside an element name by the embedded lexer
(ASCII letters and digits cover every tag the repository uses). -/
def isNameChar (c : Char) : Bool := isAsciiLetter c || isDigitChar c

/-- Go `unicode.IsSpace`, restricted to actual space code points. -/
def isGoSpace (c : Char) : Bool :=
  let n := c.toNat
  n = 0x20 || (0x9 ≤ n && n ≤ 0xD) || n = 0x85 || n = 0xA0 || n = 0x1680 ||
    (0x2000 ≤ n && n ≤ 0x200A) || n = 0x2028 || n = 0x2029 || n = 0x202F ||
    n = 0x205F || n = 0x3000

/-- Go `strings.TrimSpace` on a character list. -/
def trimSpaceL (l : List Char) : List Char :=
  ((l.dropWhile isGoSpace).reverse.dropWhile isGoSpace).reverse

/-- Value of a decimal digit character. -/
def decVal (c : Char) : Option Nat :=
  if isDigitChar c then some (c.toNat - 48) else none

/-- Value of a hexadecimal digit character. -/
def hexVal (c : Char) : Option Nat :=
  if isDigitChar c then some (c.toNat - 48)
  else if 'a' ≤ c && c ≤ 'f' then some (c.toNat - 87)
  else if 'A' ≤ c && c ≤ 'F' then some (c.toNat - 55)
  else none

/-- Accumulate a base-`b` number left to right, as Go's parse loops do. -/
def digitsValAux (dig : Char → Option Nat) (b : Nat) (acc : Nat) : List Char → Option Nat
  | [] => some acc
  | c :: rest =>
    match dig c with
    | none => none
    | some d => digitsValAux dig b (acc * b + d) rest

/-- Base-`b` value of a digit string; fails on the empty string or on a
character that is not a digit of the base. -/
def digitsVal (dig : Char → Option Nat) (b : Nat) : List Char → Option Nat
  | [] => none
  | c :: rest => digitsValAux dig b 0 (c :: rest)

/-- The digit character for `d < 10`, as Go's `strconv` emits it. -/
def digitToChar (d : Nat) : Char := Char.ofNat (48 + d)

/-- Decimal digits of a natural number (fuel-based so that it reduces in the
kernel); mirrors Go `strconv.FormatInt`'s base-10 output for naturals. -/
def natDigitsF : Nat → Nat → List Char
  | 0, _ => []
  | f + 1, n =>
    if n < 10 then [digitToChar n]
    else natDigitsF f (n / 10) ++ [digitToChar (n % 10)]

def natRepr (n : Nat) : List Char := natDigitsF (n + 1) n

/-- Base-10 rendering of a Go integer, as `strconv.FormatInt(v, 10)` /
`fmt %d` produce it: minus sign for negatives, no plus sign, no padding. -/
def intReprL : Int → List Char
  | Int.ofNat n => natRepr n
  | Int.negSucc m => '-' :: natRepr (m + 1)

def intRepr (n : Int) : String := String.mk (intReprL n)

/-- Go `strconv.ParseInt(s, 10, 64)`: optional single sign, then a nonempty
run of decimal digits, rejecting values outside the 64-bit range. -/
def goParseInt64 (l : List Char) : Option Int :=
  match l with
  | [] => none
  | c :: rest =>
    if c = '+' then (digitsVal decVal 10 rest).bind fun m =>
      if m ≤ 2 ^ 63 - 1 then some (Int.ofNat m) else none
    else if c = '-' then (digitsVal decVal 10 rest).bind fun m =>
      if m ≤ 2 ^ 63 then some (-(Int.ofNat m)) else none
    else (digitsVal decVal 10 (c :: rest)).bind fun m =>
      if m ≤ 2 ^ 63 - 1 then some (Int.ofNat m) else none

/-- `encoding/xml`'s `copyValue` for an `int` destination field: empty
character data yields zero, otherwise the data is trimmed of surrounding
space and parsed as a 64-bit base-10 integer. -/
def goAtoiData (s : String) : Option Int :=
  match s.toList with
  | [] => some 0
  | l => goParseInt64 (trimSpaceL l)

/-- List-level prefix test (used for substring checks on encoded bodies). -/
def isPrefixL : List Char → List Char → Bool
  | [], _ => true
  | _ :: _, [] => false
  | a :: as, b :: bs => a = b && isPrefixL as bs

/-- Substring test on character lists. -/
def containsSub (hay sub : List Char) : Bool :=
  if isPrefixL sub hay then true
  else match hay with
    | [] => false
    | _ :: rest => containsSub rest sub

/-! ## Go `encoding/xml` escaping of character data

`xml.Marshal` writes string and integer fields through `EscapeText`: the
five special characters and tab/LF/CR become entities, code points outside
the XML character range are replaced by U+FFFD, and everything else is
copied verbatim. -/

def escapeChar (c : Char) : List Char :=
  if c = '"' then ['&', '#', '3', '4', ';']
  else if c = '\'' then ['&', '#', '3', '9', ';']
  else if c = '&' then ['&', 'a', 'm', 'p', ';']
  else if c = '<' then ['&', 'l', 't', ';']
  else if c = '>' then ['&', 'g', 't', ';']
  else if c = '\t' then ['&', '#', 'x', '9', ';']
  else if c = '\n' then ['&', '#', 'x', 'A', ';']
  else if c = '\r' then ['&', '#', 'x', 'D', ';']
  else if inCharacterRange c then [c]
  else ['�']

def escapeL : List Char → List Char
  | [] => []
  | c :: rest => escapeChar c ++ escapeL rest

/-- What survives one marshal/unmarshal trip of a character: everything in
the XML character range is preserved, the rest collapses to U+FFFD. -/
def sanitizeChar (c : Char) : Char := if inCharacterRange c then c else '�'

def sanitizeL (l : List Char) : List Char := l.map sanitizeChar

def sanitizeStr (s : String) : String := String.mk (sanitizeL s.toList)

/-- A string whose characters all lie in the XML character range; on such
strings the wire encoding is lossless. -/
def strOk (s : String) : Prop := ∀ c ∈ s.toList, inCharacterRange c = true

instance (s : String) : Decidable (strOk s) := by
  unfold strOk; infer_instance

/-! ## XML trees and the embedded decoder

`xml.Unmarshal` tokenises the body and fills the response struct.  The
embedding parses the body into a small element tree (elements and character
data, the fragment both `Marshal` output and the spec's stub bodies live in)
and then folds the tree into the struct, mirroring `encoding/xml`'s
unmarshalling rules. -/

inductive XmlNode where
  | text (s : String)
  | elem (name : String) (children : List XmlNode)

/-- Root element name of a parsed document («the response shape's root»). -/
def rootName : XmlNode → String
  | XmlNode.text _ => ""
  | XmlNode.elem n _ => n

/-- Names of the direct child elements (the wire tags present). -/
def childTags : XmlNode → List String
  | XmlNode.text _ => []
  | XmlNode.elem _ cs => cs.filterMap fun c =>
      match c with
      | XmlNode.elem n _ => some n
      | XmlNode.text _ => none

/-- First direct child element with the given tag, like the decoder's
field lookup. -/
def childNamed (cs : List XmlNode) (tag : String) : Option XmlNode :=
  cs.find? fun c =>
    match c with
    | XmlNode.elem n _ => n = tag
    | XmlNode.text _ => false

/-- Concatenated top-level character data of an element's children; nested
elements are skipped, as `encoding/xml` does for simple-typed fields. -/
def chardataOf (cs : List XmlNode) : String :=
  String.join (cs.filterMap fun c =>
    match c with
    | XmlNode.text s => some s
    | XmlNode.elem _ _ => none)

/-- Character data of the child element with the given tag, if present. -/
def childData (cs : List XmlNode) (tag : String) : Option String :=
  match childNamed cs tag with
  | some (XmlNode.elem _ kids) => some (chardataOf kids)
  | _ => none

/-- Direct child element of a parsed document's root, by tag. -/
def docChild (doc : Option XmlNode) (tag : String) : Option XmlNode :=
  match doc with
  | some (XmlNode.elem _ cs) => childNamed cs tag
  | _ => none

/-- Character data of a tagged child of a parsed document's root. -/
def docChildData (doc : Option XmlNode) (tag : String) : Option String :=
  match doc with
  | some (XmlNode.elem _ cs) => childData cs tag
  | _ => none

/-- Split an entity body at the terminating semicolon. -/
def takeUntilSemi : List Char → Option (List Char × List Char)
  | [] => none
  | c :: rest =>
    if c = ';' then some ([], rest)
    else match takeUntilSemi rest with
      | none => none
      | some (a, b) => some (c :: a, b)

def charFromNat (n : Nat) : Option Char :=
  if h : n.isValidChar then some (Char.ofNatAux n h) else none

/-- Entity resolution of the strict Go tokenizer: the five predefined
entities plus decimal and hexadecimal character references. -/
def decodeEntity (name : List Char) : Option Char :=
  if name = ['a', 'm', 'p'] then some '&'
  else if name = ['l', 't'] then some '<'
  else if name = ['g', 't'] then some '>'
  else if name = ['q', 'u', 'o', 't'] then some '"'
  else if name = ['a', 'p', 'o', 's'] then some '\''
  else match name with
    | '#' :: 'x' :: ds => (digitsVal hexVal 16 ds).bind charFromNat
    | '#' :: ds => (digitsVal decVal 10 ds).bind charFromNat
    | _ => none

/-- Lex character data up to the next `<` (or the end of input), resolving
entities; fails on a malformed entity, as the strict decoder does. -/
def lexTextF : Nat → List Char → Option (List Char × List Char)
  | 0, _ => none
  | _ + 1, [] => some ([], [])
  | f + 1, c :: rest =>
    if c = '<' then some ([], c :: rest)
    else if c = '&' then
      match takeUntilSemi rest with
      | none => none
      | some (ent, rest2) =>
        match decodeEntity ent with
        | none => none
        | some ch =>
          match lexTextF f rest2 with
          | none => none
          | some (t, r) => some (ch :: t, r)
    else
      match lexTextF f rest with
      | none => none
      | some (t, r) => some (c :: t, r)

/-- Longest name-character run at the head of the input. -/
def spanName : List Char → List Char × List Char
  | [] => ([], [])
  | c :: rest =>
    if isNameChar c then
      match spanName rest with
      | (a, b) => (c :: a, b)
    else ([], c :: rest)

/-- Lex an element name directly followed by `>`. -/
def lexName (l : List Char) : Option (List Char × List Char) :=
  match spanName l with
  | ([], _) => none
  | (nm, rest) =>
    match rest with
    | '>' :: rest2 => some (nm, rest2)
    | _ => none

/-- Consume the closing tag `</name>`. -/
def expectClose (name : List Char) (l : List Char) : Option (List Char) :=
  match l with
  | c1 :: c2 :: rest =>
    if c1 = '<' ∧ c2 = '/' then
      match lexName rest with
      | none => none
      | some (nm, rest2) => if nm = name then some rest2 else none
    else none
  | _ => none

/-- Parse a sequence of sibling nodes, stopping in front of a closing tag
or at the end of input.  Fuel-based so that it is structurally recursive
and reduces in the kernel. -/
def parseNodesF : Nat → List Char → Option (List XmlNode × List Char)
  | 0, _ => none
  | _ + 1, [] => some ([], [])
  | f + 1, c :: rest =>
    if c = '<' then
      if rest.head? = some '/' then some ([], c :: rest)
      else
        match lexName rest with
        | none => none
        | some (nm, rest1) =>
          match parseNodesF f rest1 with
          | none => none
          | some (children, rest2) =>
            match expectClose nm rest2 with
            | none => none
            | some rest3 =>
              match parseNodesF f rest3 with
              | none => none
              | some (ns, rest4) =>
                some (XmlNode.elem (String.mk nm) children :: ns, rest4)
    else
      match lexTextF (f + 1) (c :: rest) with
      | none => none
      | some (t, rest1) =>
        match parseNodesF f rest1 with
        | none => none
        | some (ns, rest2) => some (XmlNode.text (String.mk t) :: ns, rest2)

/-- Parse exactly one element and return the remaining input unread. -/
def parseOneF : Nat → List Char → Option (XmlNode × List Char)
  | 0, _ => none
  | f + 1, l =>
    match l with
    | [] => none
    | c :: rest =>
      if c = '<' then
        match lexName rest with
        | none => none
        | some (nm, rest1) =>
          match parseNodesF f rest1 with
          | none => none
          | some (children, rest2) =>
            match expectClose nm rest2 with
            | none => none
            | some rest3 => some (XmlNode.elem (String.mk nm) children, rest3)
      else none

/-- Parse a response body the way `xml.Unmarshal` consumes it: leading
character data before the root is tokenised and skipped, the root element is
parsed, and anything after the root's closing tag is left unread. -/
def parseDoc (s : String) : Option XmlNode :=
  let l := s.toList
  match lexTextF (l.length + 1) l with
  | none => none
  | some (_, rest) =>
    match parseOneF (rest.length + 1) rest with
    | none => none
    | some (n, _) => some n

/-! ## Rendered wire fragments

`xml.Marshal` renders a struct as `<Name>` fields `</Name>` where each
field becomes `<tag>` escaped-data `</tag>`, fields tagged `omitempty`
being skipped at their zero value.  These combinators build exactly that
output (as character lists). -/

def elemRender (nm : List Char) (inner : List Char) : List Char :=
  '<' :: nm ++ '>' :: inner ++ '<' :: '/' :: nm ++ ['>']

def strField (tag : String) (s : String) : List Char :=
  elemRender tag.toList (escapeL s.toList)

def strOmitField (tag : String) (s : String) : List Char :=
  if s = "" then [] else strField tag s

def intField (tag : String) (n : Int) : List Char :=
  elemRender tag.toList (intReprL n)

def intOmitField (tag : String) (n : Int) : List Char :=
  if n = 0 then [] else intField tag n

def optStrField (tag : String) : Option String → List Char
  | none => []
  | some s => strField tag s

/-- The children an element with given character data parses back to:
no child for empty data, one text node otherwise. -/
def leafChildren (s : String) : List XmlNode :=
  if s = "" then [] else [XmlNode.text s]

/-- Children contributed by an optional (`*string`, `omitempty`) field:
nothing for nil, one element (as it parses back) for a present pointer. -/
def optChildNodes (tag : String) : Option String → List XmlNode
  | none => []
  | some s => [XmlNode.elem tag (leafChildren (sanitizeStr s))]

/-- A usable element tag: nonempty and made of name characters. -/
def tagOkB (nm : List Char) : Bool := !nm.isEmpty && nm.all isNameChar

/-- The rendered fragment `a` parses, under any sufficient fuel and in
front of any closing tag, to exactly the node list `ns`. -/
def ChildrenParse (a : List Char) (ns : List XmlNode) : Prop :=
  ∀ f t, a.length + 1 ≤ f →
    parseNodesF f (a ++ '<' :: '/' :: t) = some (ns, '<' :: '/' :: t)

/-! ## Message shapes (`client.go` lines 185-336)

The enumerated status vocabularies are Go named string types; they are
embedded as `String` with their constant sets listed, since the code
attaches no validation to them. -/

abbrev ErrorCode := String
abbrev RegistrationStatus := String
abbrev AuthorizationStatus := String
abbrev TransactionEventStatus := String
abbrev DataTransferStatus := String

def errorCodes : List ErrorCode :=
  ["GenericError", "ProtocolError", "InternalError", "NotImplemented",
   "UnknownMessageType"]

def registrationStatuses : List RegistrationStatus :=
  ["Accepted", "Pending", "Rejected", "Scheduled", "Unscheduled", "Recurring",
   "Cancelled", "Installation", "Registration", "Deregistration"]

def authorizationStatuses : List AuthorizationStatus :=
  ["Accepted", "Blocked", "Expired", "Invalid", "ConcurrentTx"]

def transactionEventStatuses : List TransactionEventStatus :=
  ["Accepted", "Rejected"]

def dataTransferStatuses : List DataTransferStatus :=
  ["Accepted", "Rejected"]

/-- `MeterValue` is a declared placeholder with no fields in the source. -/
structure MeterValue where
  deriving DecidableEq

structure BootNotificationRequest where
  ChargeBoxIdentity : String
  deriving DecidableEq

structure BootNotificationResponse where
  Status : RegistrationStatus
  CurrentTime : String
  Interval : Int
  Heartbeat : Int
  deriving DecidableEq

structure HeartbeatRequest where
  deriving DecidableEq

structure HeartbeatResponse where
  CurrentTime : String
  deriving DecidableEq

structure AuthorizeRequest where
  IdTag : String
  deriving DecidableEq

/-- `ExpiryDate`/`ParentIdTag` are `*string` in Go; `none` is the nil
pointer (the zero value, omitted by `omitempty`). -/
structure IdTagInfo where
  Status : AuthorizationStatus
  ExpiryDate : Option String
  ParentIdTag : Option String
  deriving DecidableEq

structure AuthorizeResponse where
  IdTagInfo : Ocpp.IdTagInfo
  deriving DecidableEq

structure StartTransactionRequest where
  ConnectorId : Int
  IdTag : String
  deriving DecidableEq

structure StartTransactionResponse where
  TransactionId : Int
  deriving DecidableEq

structure StopTransactionRequest where
  TransactionId : Int
  deriving DecidableEq

structure StopTransactionResponse where
  Status : TransactionEventStatus
  deriving DecidableEq

/-- Modelled from the spec: the type `MeterValuesRequest` is absent from
src/ (only its caller `MeterValues` appears there); §3 of the spec gives it
one field, an ordered sequence of meter readings whose per-reading fields
are an unspecified placeholder. -/
structure MeterValuesRequest where
  Values : List MeterValue
  deriving DecidableEq

structure MeterValuesResponse where
  Status : RegistrationStatus
  deriving DecidableEq

structure Status where
  ErrorCode : Ocpp.ErrorCode
  StatusDetail : String
  deriving DecidableEq

structure StatusNotificationRequest where
  Status : Ocpp.Status
  deriving DecidableEq

structure StatusNotificationResponse where
  Status : Ocpp.Status
  deriving DecidableEq

structure DataTransferRequest where
  VendorId : String
  MessageData : String
  deriving DecidableEq

structure DataTransferResponse where
  Status : DataTransferStatus
  Data : String
  deriving DecidableEq

/-! ## Wire encoding of the message shapes

Each `encodeXL` is the exact byte output of Go `xml.Marshal` on the struct:
root element named after the struct type (none of the structs declares an
`XMLName`), one child element per field in declaration order, `omitempty`
fields skipped at their zero value, character data escaped by `EscapeText`.
`xml.Marshal` emits no XML declaration header. -/

def encodeBootNotificationRequestL (r : BootNotificationRequest) : List Char :=
  elemRender "BootNotificationRequest".toList
    (strField "chargeBoxIdentity" r.ChargeBoxIdentity)

def encodeBootNotificationRequest (r : BootNotificationRequest) : String :=
  String.mk (encodeBootNotificationRequestL r)

def encodeHeartbeatRequestL (_ : HeartbeatRequest) : List Char :=
  elemRender "HeartbeatRequest".toList []

def encodeHeartbeatRequest (r : HeartbeatRequest) : String :=
  String.mk (encodeHeartbeatRequestL r)

def encodeAuthorizeRequestL (r : AuthorizeRequest) : List Char :=
  elemRender "AuthorizeRequest".toList (strField "idTag" r.IdTag)

def encodeAuthorizeRequest (r : AuthorizeRequest) : String :=
  String.mk (encodeAuthorizeRequestL r)

def encodeStartTransactionRequestL (r : StartTransactionRequest) : List Char :=
  elemRender "StartTransactionRequest".toList
    (intField "connectorId" r.ConnectorId ++ strField "idTag" r.IdTag)

def encodeStartTransactionRequest (r : StartTransactionRequest) : String :=
  String.mk (encodeStartTransactionRequestL r)

def encodeStopTransactionRequestL (r : StopTransactionRequest) : List Char :=
  elemRender "StopTransactionRequest".toList
    (intField "transactionId" r.TransactionId)

def encodeStopTransactionRequest (r : StopTransactionRequest) : String :=
  String.mk (encodeStopTransactionRequestL r)

/-- Modelled from the spec: one empty element per meter reading, since the
reading's fields are an unspecified placeholder. -/
def meterValuesInner : List MeterValue → List Char
  | [] => []
  | _ :: rest => elemRender "meterValue".toList [] ++ meterValuesInner rest

def encodeMeterValuesRequestL (r : MeterValuesRequest) : List Char :=
  elemRender "MeterValuesRequest".toList (meterValuesInner r.Values)

def encodeMeterValuesRequest (r : MeterValuesRequest) : String :=
  String.mk (encodeMeterValuesRequestL r)

def statusInner (st : Ocpp.Status) : List Char :=
  strOmitField "errorCode" st.ErrorCode ++ strOmitField "statusDetail" st.StatusDetail

def encodeStatusNotificationRequestL (r : StatusNotificationRequest) : List Char :=
  elemRender "StatusNotificationRequest".toList
    (elemRender "status".toList (statusInner r.Status))

def encodeStatusNotificationRequest (r : StatusNotificationRequest) : String :=
  String.mk (encodeStatusNotificationRequestL r)

def encodeDataTransferRequestL (r : DataTransferRequest) : List Char :=
  elemRender "DataTransferRequest".toList
    (strField "vendorId" r.VendorId ++ strField "messageData" r.MessageData)

def encodeDataTransferRequest (r : DataTransferRequest) : String :=
  String.mk (encodeDataTransferRequestL r)

def encodeBootNotificationResponseL (r : BootNotificationResponse) : List Char :=
  elemRender "BootNotificationResponse".toList
    (strField "status" r.Status ++ strOmitField "currentTime" r.CurrentTime ++
      intOmitField "interval" r.Interval ++ intOmitField "heartbeat" r.Heartbeat)

def encodeBootNotificationResponse (r : BootNotificationResponse) : String :=
  String.mk (encodeBootNotificationResponseL r)

def encodeHeartbeatResponseL (r : HeartbeatResponse) : List Char :=
  elemRender "HeartbeatResponse".toList (strOmitField "currentTime" r.CurrentTime)

def encodeHeartbeatResponse (r : HeartbeatResponse) : String :=
  String.mk (encodeHeartbeatResponseL r)

def idTagInfoInner (info : IdTagInfo) : List Char :=
  strField "status" info.Status ++ optStrField "expiryDate" info.ExpiryDate ++
    optStrField "parentIdTag" info.ParentIdTag

def encodeAuthorizeResponseL (r : AuthorizeResponse) : List Char :=
  elemRender "AuthorizeResponse".toList
    (elemRender "idTagInfo".toList (idTagInfoInner r.IdTagInfo))

def encodeAuthorizeResponse (r : AuthorizeResponse) : String :=
  String.mk (encodeAuthorizeResponseL r)

def encodeDataTransferResponseL (r : DataTransferResponse) : List Char :=
  elemRender "DataTransferResponse".toList
    (strField "status" r.Status ++ strOmitField "data" r.Data)

def encodeDataTransferResponse (r : DataTransferResponse) : String :=
  String.mk (encodeDataTransferResponseL r)

/-! ## Wire decoding into the message shapes

Each `unmarshalX` folds the children of the (name-ignored) root element
over a start value, exactly as `xml.Unmarshal` fills a pre-allocated
struct: child elements are matched against the field tags, unmatched
children and stray character data are skipped, a repeated tag overwrites
(for nested structs: merges into) the earlier value, and an unparsable
integer aborts the whole decode with an error. -/

def unmarshalBootNotificationRequest (acc : BootNotificationRequest) :
    List XmlNode → Option BootNotificationRequest
  | [] => some acc
  | XmlNode.elem nm kids :: rest =>
    if nm = "chargeBoxIdentity" then
      unmarshalBootNotificationRequest { acc with ChargeBoxIdentity := chardataOf kids } rest
    else unmarshalBootNotificationRequest acc rest
  | XmlNode.text _ :: rest => unmarshalBootNotificationRequest acc rest

def unmarshalHeartbeatRequest (acc : HeartbeatRequest) :
    List XmlNode → Option HeartbeatRequest
  | [] => some acc
  | _ :: rest => unmarshalHeartbeatRequest acc rest

def unmarshalAuthorizeRequest (acc : AuthorizeRequest) :
    List XmlNode → Option AuthorizeRequest
  | [] => some acc
  | XmlNode.elem nm kids :: rest =>
    if nm = "idTag" then
      unmarshalAuthorizeRequest { acc with IdTag := chardataOf kids } rest
    else unmarshalAuthorizeRequest acc rest
  | XmlNode.text _ :: rest => unmarshalAuthorizeRequest acc rest

def unmarshalStartTransactionRequest (acc : StartTransactionRequest) :
    List XmlNode → Option StartTransactionRequest
  | [] => some acc
  | XmlNode.elem nm kids :: rest =>
    if nm = "connectorId" then
      match goAtoiData (chardataOf kids) with
      | none => none
      | some v => unmarshalStartTransactionRequest { acc with ConnectorId := v } rest
    else if nm = "idTag" then
      unmarshalStartTransactionRequest { acc with IdTag := chardataOf kids } rest
    else unmarshalStartTransactionRequest acc rest
  | XmlNode.text _ :: rest => unmarshalStartTransactionRequest acc rest

def unmarshalStopTransactionRequest (acc : StopTransactionRequest) :
    List XmlNode → Option StopTransactionRequest
  | [] => some acc
  | XmlNode.elem nm kids :: rest =>
    if nm = "transactionId" then
      match goAtoiData (chardataOf kids) with
      | none => none
      | some v => unmarshalStopTransactionRequest { acc with TransactionId := v } rest
    else unmarshalStopTransactionRequest acc rest
  | XmlNode.text _ :: rest => unmarshalStopTransactionRequest acc rest

/-- Modelled from the spec, matching `meterValuesInner`. -/
def unmarshalMeterValuesRequest (acc : MeterValuesRequest) :
    List XmlNode → Option MeterValuesRequest
  | [] => some acc
  | XmlNode.elem nm _ :: rest =>
    if nm = "meterValue" then
      unmarshalMeterValuesRequest { acc with Values := acc.Values ++ [{}] } rest
    else unmarshalMeterValuesRequest acc rest
  | XmlNode.text _ :: rest => unmarshalMeterValuesRequest acc rest

def unmarshalStatus (acc : Ocpp.Status) : List XmlNode → Option Ocpp.Status
  | [] => some acc
  | XmlNode.elem nm kids :: rest =>
    if nm = "errorCode" then
      unmarshalStatus { acc with ErrorCode := chardataOf kids } rest
    else if nm = "statusDetail" then
      unmarshalStatus { acc with StatusDetail := chardataOf kids } rest
    else unmarshalStatus acc rest
  | XmlNode.text _ :: rest => unmarshalStatus acc rest

def unmarshalStatusNotificationRequest (acc : StatusNotificationRequest) :
    List XmlNode → Option StatusNotificationRequest
  | [] => some acc
  | XmlNode.elem nm kids :: rest =>
    if nm = "status" then
      match unmarshalStatus acc.Status kids with
      | none => none
      | some st => unmarshalStatusNotificationRequest { acc with Status := st } rest
    else unmarshalStatusNotificationRequest acc rest
  | XmlNode.text _ :: rest => unmarshalStatusNotificationRequest acc rest

def unmarshalDataTransferRequest (acc : DataTransferRequest) :
    List XmlNode → Option DataTransferRequest
  | [] => some acc
  | XmlNode.elem nm kids :: rest =>
    if nm = "vendorId" then
      unmarshalDataTransferRequest { acc with VendorId := chardataOf kids } rest
    else if nm = "messageData" then
      unmarshalDataTransferRequest { acc with MessageData := chardataOf kids } rest
    else unmarshalDataTransferRequest acc rest
  | XmlNode.text _ :: rest => unmarshalDataTransferRequest acc rest

def unmarshalBootNotificationResponse (acc : BootNotificationResponse) :
    List XmlNode → Option BootNotificationResponse
  | [] => some acc
  | XmlNode.elem nm kids :: rest =>
    if nm = "status" then
      unmarshalBootNotificationResponse { acc with Status := chardataOf kids } rest
    else if nm = "currentTime" then
      unmarshalBootNotificationResponse { acc with CurrentTime := chardataOf kids } rest
    else if nm = "interval" then
      match goAtoiData (chardataOf kids) with
      | none => none
      | some v => unmarshalBootNotificationResponse { acc with Interval := v } rest
    else if nm = "heartbeat" then
      match goAtoiData (chardataOf kids) with
      | none => none
      | some v => unmarshalBootNotificationResponse { acc with Heartbeat := v } rest
    else unmarshalBootNotificationResponse acc rest
  | XmlNode.text _ :: rest => unmarshalBootNotificationResponse acc rest

def unmarshalHeartbeatResponse (acc : HeartbeatResponse) :
    List XmlNode → Option HeartbeatResponse
  | [] => some acc
  | XmlNode.elem nm kids :: rest =>
    if nm = "currentTime" then
      unmarshalHeartbeatResponse { acc with CurrentTime := chardataOf kids } rest
    else unmarshalHeartbeatResponse acc rest
  | XmlNode.text _ :: rest => unmarshalHeartbeatResponse acc rest

def unmarshalIdTagInfo (acc : IdTagInfo) : List XmlNode → Option IdTagInfo
  | [] => some acc
  | XmlNode.elem nm kids :: rest =>
    if nm = "status" then
      unmarshalIdTagInfo { acc with Status := chardataOf kids } rest
    else if nm = "expiryDate" then
      unmarshalIdTagInfo { acc with ExpiryDate := some (chardataOf kids) } rest
    else if nm = "parentIdTag" then
      unmarshalIdTagInfo { acc with ParentIdTag := some (chardataOf kids) } rest
    else unmarshalIdTagInfo acc rest
  | XmlNode.text _ :: rest => unmarshalIdTagInfo acc rest

def unmarshalAuthorizeResponse (acc : AuthorizeResponse) :
    List XmlNode → Option AuthorizeResponse
  | [] => some acc
  | XmlNode.elem nm kids :: rest =>
    if nm = "idTagInfo" then
      match unmarshalIdTagInfo acc.IdTagInfo kids with
      | none => none
      | some info => unmarshalAuthorizeResponse { acc with IdTagInfo := info } rest
    else unmarshalAuthorizeResponse acc rest
  | XmlNode.text _ :: rest => unmarshalAuthorizeResponse acc rest

def unmarshalStartTransactionResponse (acc : StartTransactionResponse) :
    List XmlNode → Option StartTransactionResponse
  | [] => some acc
  | XmlNode.elem nm kids :: rest =>
    if nm = "transactionId" then
      match goAtoiData (chardataOf kids) with
      | none => none
      | some v => unmarshalStartTransactionResponse { acc with TransactionId := v } rest
    else unmarshalStartTransactionResponse acc rest
  | XmlNode.text _ :: rest => unmarshalStartTransactionResponse acc rest

def unmarshalStopTransactionResponse (acc : StopTransactionResponse) :
    List XmlNode → Option StopTransactionResponse
  | [] => some acc
  | XmlNode.elem nm kids :: rest =>
    if nm = "status" then
      unmarshalStopTransactionResponse { acc with Status := chardataOf kids } rest
    else unmarshalStopTransactionResponse acc rest
  | XmlNode.text _ :: rest => unmarshalStopTransactionResponse acc rest

def unmarshalMeterValuesResponse (acc : MeterValuesResponse) :
    List XmlNode → Option MeterValuesResponse
  | [] => some acc
  | XmlNode.elem nm kids :: rest =>
    if nm = "status" then
      unmarshalMeterValuesResponse { acc with Status := chardataOf kids } rest
    else unmarshalMeterValuesResponse acc rest
  | XmlNode.text _ :: rest => unmarshalMeterValuesResponse acc rest

def unmarshalStatusNotificationResponse (acc : StatusNotificationResponse) :
    List XmlNode → Option StatusNotificationResponse
  | [] => some acc
  | XmlNode.elem nm kids :: rest =>
    if nm = "status" then
      match unmarshalStatus acc.Status kids with
      | none => none
      | some st => unmarshalStatusNotificationResponse { acc with Status := st } rest
    else unmarshalStatusNotificationResponse acc rest
  | XmlNode.text _ :: rest => unmarshalStatusNotificationResponse acc rest

def unmarshalDataTransferResponse (acc : DataTransferResponse) :
    List XmlNode → Option DataTransferResponse
  | [] => some acc
  | XmlNode.elem nm kids :: rest =>
    if nm = "status" then
      unmarshalDataTransferResponse { acc with Status := chardataOf kids } rest
    else if nm = "data" then
      unmarshalDataTransferResponse { acc with Data := chardataOf kids } rest
    else unmarshalDataTransferResponse acc rest
  | XmlNode.text _ :: rest => unmarshalDataTransferResponse acc rest

/-- Decode a full body into a shape from its Go zero value; the root
element's own name is ignored, as `xml.Unmarshal` does for structs without
an `XMLName` field. -/
def decodeBootNotificationRequest (s : String) : Option BootNotificationRequest :=
  match parseDoc s with
  | some (XmlNode.elem _ cs) => unmarshalBootNotificationRequest ⟨""⟩ cs
  | _ => none

def decodeHeartbeatRequest (s : String) : Option HeartbeatRequest :=
  match parseDoc s with
  | some (XmlNode.elem _ cs) => unmarshalHeartbeatRequest ⟨⟩ cs
  | _ => none

def decodeAuthorizeRequest (s : String) : Option AuthorizeRequest :=
  match parseDoc s with
  | some (XmlNode.elem _ cs) => unmarshalAuthorizeRequest ⟨""⟩ cs
  | _ => none

def decodeStartTransactionRequest (s : String) : Option StartTransactionRequest :=
  match parseDoc s with
  | some (XmlNode.elem _ cs) => unmarshalStartTransactionRequest ⟨0, ""⟩ cs
  | _ => none

def decodeStopTransactionRequest (s : String) : Option StopTransactionRequest :=
  match parseDoc s with
  | some (XmlNode.elem _ cs) => unmarshalStopTransactionRequest ⟨0⟩ cs
  | _ => none

def decodeMeterValuesRequest (s : String) : Option MeterValuesRequest :=
  match parseDoc s with
  | some (XmlNode.elem _ cs) => unmarshalMeterValuesRequest ⟨[]⟩ cs
  | _ => none

def decodeStatusNotificationRequest (s : String) : Option StatusNotificationRequest :=
  match parseDoc s with
  | some (XmlNode.elem _ cs) => unmarshalStatusNotificationRequest ⟨⟨"", ""⟩⟩ cs
  | _ => none

def decodeDataTransferRequest (s : String) : Option DataTransferRequest :=
  match parseDoc s with
  | some (XmlNode.elem _ cs) => unmarshalDataTransferRequest ⟨"", ""⟩ cs
  | _ => none

def decodeBootNotificationResponse (s : String) : Option BootNotificationResponse :=
  match parseDoc s with
  | some (XmlNode.elem _ cs) => unmarshalBootNotificationResponse ⟨"", "", 0, 0⟩ cs
  | _ => none

def decodeHeartbeatResponse (s : String) : Option HeartbeatResponse :=
  match parseDoc s with
  | some (XmlNode.elem _ cs) => unmarshalHeartbeatResponse ⟨""⟩ cs
  | _ => none

def decodeAuthorizeResponse (s : String) : Option AuthorizeResponse :=
  match parseDoc s with
  | some (XmlNode.elem _ cs) => unmarshalAuthorizeResponse ⟨⟨"", none, none⟩⟩ cs
  | _ => none

def decodeStartTransactionResponse (s : String) : Option StartTransactionResponse :=
  match parseDoc s with
  | some (XmlNode.elem _ cs) => unmarshalStartTransactionResponse ⟨0⟩ cs
  | _ => none

def decodeStopTransactionResponse (s : String) : Option StopTransactionResponse :=
  match parseDoc s with
  | some (XmlNode.elem _ cs) => unmarshalStopTransactionResponse ⟨""⟩ cs
  | _ => none

def decodeMeterValuesResponse (s : String) : Option MeterValuesResponse :=
  match parseDoc s with
  | some (XmlNode.elem _ cs) => unmarshalMeterValuesResponse ⟨""⟩ cs
  | _ => none

def decodeStatusNotificationResponse (s : String) : Option StatusNotificationResponse :=
  match parseDoc s with
  | some (XmlNode.elem _ cs) => unmarshalStatusNotificationResponse ⟨⟨"", ""⟩⟩ cs
  | _ => none

def decodeDataTransferResponse (s : String) : Option DataTransferResponse :=
  match parseDoc s with
  | some (XmlNode.elem _ cs) => unmarshalDataTransferResponse ⟨"", ""⟩ cs
  | _ => none

/-! ## The client and the message dispatcher (`client.go` lines 22-183) -/

structure HTTPResponse where
  statusCode : Nat
  statusText : String
  bodyRead : Except String String

inductive PostResult where
  | fail (msg : String)
  | ok (resp : HTTPResponse)

/-- The injected HTTP transport: a synchronous POST taking url,
content type and body, returning either a transport error or a response
carrying a status and a readable body (`bodyRead` is what `ReadAll` on the
body would yield). -/
def Transport := String → String → String → PostResult

inductive Logger where
  | nop
  | sink (tag : String)
  deriving DecidableEq

/-- `Client` from `client.go`: endpoint, HTTP transport handle and logger.
The logger field keeps the Go pointer's nilability (`none` = nil). -/
structure Client where
  endpoint : String
  httpClient : Transport
  logger : Option Logger

/-- `NewClient`: a nil logger is replaced by the no-op logger; the
transport is the package default (passed explicitly here since the model
has no mutable package globals). -/
def NewClient (endpoint : String) (logger : Option Logger)
    (defaultHTTPClient : Transport) : Client :=
  { endpoint := endpoint
    httpClient := defaultHTTPClient
    logger :=
      match logger with
      | none => some Logger.nop
      | some lg => some lg }

def SetHTTPClient (c : Client) (client : Transport) : Client :=
  { c with httpClient := client }

/-- The five failure categories of §7's taxonomy, tagged by provenance in
`sendRequest` (each is a distinct `errors.New`/wrapped error in Go).
`encodingError` cannot arise for the repository's message shapes, whose
fields always marshal. -/
inductive SendError where
  | encodingError (msg : String)
  | transportError (msg : String)
  | remoteStatus (msg : String)
  | bodyReadError (msg : String)
  | decodeError (msg : String)
  deriving DecidableEq

/-- Observable dispatch actions: the POST call, the body read
(`ioutil.ReadAll`), and the decode attempt (`xml.Unmarshal`). -/
inductive Event where
  | post (url contentType body : String)
  | readBody
  | decodeAttempt (body : String)
  deriving DecidableEq

def postsOf (evs : List Event) : List (String × String × String) :=
  evs.filterMap fun e =>
    match e with
    | Event.post u ct b => some (u, ct, b)
    | _ => none

def loggerLogs (lg : Logger) (msg : String) : List String :=
  match lg with
  | Logger.nop => []
  | Logger.sink tag => [tag ++ ": " ++ msg]

/-- `c.logger.Error(msg, ...)`: calling through a nil `*zap.Logger` panics;
a no-op logger discards; an injected logger records the message. -/
def loggerError (l : Option Logger) (msg : String) : Except String (List String) :=
  match l with
  | none => Except.error "runtime error: invalid memory address or nil pointer dereference"
  | some lg => Except.ok (loggerLogs lg msg)

structure DispatchResult (ρ : Type) where
  result : Except SendError ρ
  events : List Event
  logs : List String
  client : Client

/-- `sendRequest` (`client.go` lines 54-87): POST the marshalled request to
`endpoint/action` with content type `application/xml`; on a transport
error return it; on a status other than 200 return
`non-200 status code received: <status>` without touching the body; else
read the body incident and unmarshal it into the response shape.  The
caller passes the marshalled bytes (`xml.Marshal` is total on the
repository's shapes) and the shape's decoder.  The outer `Except String`
is a panic (only reachable through a nil logger). -/
def sendRequest {ρ : Type} (c : Client) (action : String) (requestXML : String)
    (dec : String → Option ρ) : Except String (DispatchResult ρ) :=
  let url := c.endpoint ++ "/" ++ action
  let posted : List Event := [Event.post url "application/xml" requestXML]
  match c.httpClient url "application/xml" requestXML with
  | PostResult.fail msg =>
    match loggerError c.logger "failed to send HTTP request" with
    | Except.error p => Except.error p
    | Except.ok logs =>
      Except.ok ⟨Except.error (SendError.transportError msg), posted, logs, c⟩
  | PostResult.ok resp =>
    if resp.statusCode ≠ 200 then
      match loggerError c.logger ("non-200 status code received: " ++ resp.statusText) with
      | Except.error p => Except.error p
      | Except.ok logs =>
        Except.ok ⟨Except.error (SendError.remoteStatus
          ("non-200 status code received: " ++ resp.statusText)), posted, logs, c⟩
    else
      match resp.bodyRead with
      | Except.error msg =>
        match loggerError c.logger "failed to read response body" with
        | Except.error p => Except.error p
        | Except.ok logs =>
          Except.ok ⟨Except.error (SendError.bodyReadError msg),
            posted ++ [Event.readBody], logs, c⟩
      | Except.ok respBody =>
        match dec respBody with
        | none =>
          match loggerError c.logger "failed to unmarshal response XML" with
          | Except.error p => Except.error p
          | Except.ok logs =>
            Except.ok ⟨Except.error (SendError.decodeError respBody),
              posted ++ [Event.readBody, Event.decodeAttempt respBody], logs, c⟩
        | some r =>
          Except.ok ⟨Except.ok r,
            posted ++ [Event.readBody, Event.decodeAttempt respBody], [], c⟩

/-- The logger-free kernel of `sendRequest` (used to state that the logger
never influences the dispatch outcome): result and events as functions of
the transport's reply alone. -/
def dispatchCore {ρ : Type} (t : Transport) (endpoint action requestXML : String)
    (dec : String → Option ρ) : Except SendError ρ × List Event :=
  let url := endpoint ++ "/" ++ action
  let posted : List Event := [Event.post url "application/xml" requestXML]
  match t url "application/xml" requestXML with
  | PostResult.fail msg => (Except.error (SendError.transportError msg), posted)
  | PostResult.ok resp =>
    if resp.statusCode ≠ 200 then
      (Except.error (SendError.remoteStatus
        ("non-200 status code received: " ++ resp.statusText)), posted)
    else
      match resp.bodyRead with
      | Except.error msg =>
        (Except.error (SendError.bodyReadError msg), posted ++ [Event.readBody])
      | Except.ok respBody =>
        match dec respBody with
        | none => (Except.error (SendError.decodeError respBody),
            posted ++ [Event.readBody, Event.decodeAttempt respBody])
        | some r => (Except.ok r,
            posted ++ [Event.readBody, Event.decodeAttempt respBody])

/-- The message `sendRequest` hands the logger on each failure category. -/
def errorLogMsg : SendError → String
  | SendError.encodingError _ => "failed to marshal request XML"
  | SendError.transportError _ => "failed to send HTTP request"
  | SendError.remoteStatus msg => msg
  | SendError.bodyReadError _ => "failed to read response body"
  | SendError.decodeError _ => "failed to unmarshal response XML"

/-- Result of a per-action method that yields a response value: the Go
`(*Response, error)` pair (with its nil conventions kept), plus the
observable events and the receiver's state after the call. -/
structure CallResult (ρ : Type) where
  response : Option ρ
  err : Option SendError
  events : List Event
  logs : List String
  client : Client

/-- Result of a per-action method that yields only an error. -/
structure ErrCallResult where
  err : Option SendError
  events : List Event
  logs : List String
  client : Client

/-- The shared Go pattern of every value-returning method:
`if err := c.sendRequest(...); err != nil { return nil, err }` followed by
`return response, nil`. -/
def wrapResp {ρ : Type} (x : Except String (DispatchResult ρ)) :
    Except String (CallResult ρ) :=
  match x with
  | Except.error p => Except.error p
  | Except.ok out =>
    match out.result with
    | Except.error e => Except.ok ⟨none, some e, out.events, out.logs, out.client⟩
    | Except.ok r => Except.ok ⟨some r, none, out.events, out.logs, out.client⟩

/-- The shared pattern of the two error-only methods (`MeterValues`,
`StatusNotification`): the decoded response is dropped. -/
def wrapErr {ρ : Type} (x : Except String (DispatchResult ρ)) :
    Except String ErrCallResult :=
  match x with
  | Except.error p => Except.error p
  | Except.ok out =>
    match out.result with
    | Except.error e => Except.ok ⟨some e, out.events, out.logs, out.client⟩
    | Except.ok _ => Except.ok ⟨none, out.events, out.logs, out.client⟩

def BootNotification (c : Client) (chargeBoxIdentity : String) :
    Except String (CallResult BootNotificationResponse) :=
  let request : BootNotificationRequest := { ChargeBoxIdentity := chargeBoxIdentity }
  wrapResp (sendRequest c "BootNotification" (encodeBootNotificationRequest request)
    decodeBootNotificationResponse)

def Heartbeat (c : Client) : Except String (CallResult HeartbeatResponse) :=
  let request : HeartbeatRequest := {}
  wrapResp (sendRequest c "Heartbeat" (encodeHeartbeatRequest request)
    decodeHeartbeatResponse)

def Authorize (c : Client) (idTag : String) :
    Except String (CallResult AuthorizeResponse) :=
  let request : AuthorizeRequest := { IdTag := idTag }
  wrapResp (sendRequest c "Authorize" (encodeAuthorizeRequest request)
    decodeAuthorizeResponse)

def StartTransaction (c : Client) (connectorId : Int) (idTag : String) :
    Except String (CallResult StartTransactionResponse) :=
  let request : StartTransactionRequest := { ConnectorId := connectorId, IdTag := idTag }
  wrapResp (sendRequest c "StartTransaction" (encodeStartTransactionRequest request)
    decodeStartTransactionResponse)

def StopTransaction (c : Client) (transactionId : Int) :
    Except String (CallResult StopTransactionResponse) :=
  let request : StopTransactionRequest := { TransactionId := transactionId }
  wrapResp (sendRequest c "StopTransaction" (encodeStopTransactionRequest request)
    decodeStopTransactionResponse)

def MeterValues (c : Client) (values : List MeterValue) :
    Except String ErrCallResult :=
  let request : MeterValuesRequest := { Values := values }
  wrapErr (sendRequest c "MeterValues" (encodeMeterValuesRequest request)
    decodeMeterValuesResponse)

def StatusNotification (c : Client) (status : Ocpp.Status) :
    Except String ErrCallResult :=
  let request : StatusNotificationRequest := { Status := status }
  wrapErr (sendRequest c "StatusNotification" (encodeStatusNotificationRequest request)
    decodeStatusNotificationResponse)

def DataTransfer (c : Client) (vendorId : String) (messageData : String) :
    Except String (CallResult DataTransferResponse) :=
  let request : DataTransferRequest := { VendorId := vendorId, MessageData := messageData }
  wrapResp (sendRequest c "DataTransfer" (encodeDataTransferRequest request)
    decodeDataTransferResponse)

/-! ## Call histories (for the statelessness claims) -/

inductive CallSpec where
  | boot (chargeBoxIdentity : String)
  | heartbeat
  | authorize (idTag : String)
  | startTx (connectorId : Int) (idTag : String)
  | stopTx (transactionId : Int)
  | meter (values : List MeterValue)
  | statusNote (status : Ocpp.Status)
  | dataTx (vendorId messageData : String)

/-- Perform one call and keep the client state it leaves behind (on a
panic the state is moot; the prior state is kept so that histories stay
total). -/
def runCall (c : Client) : CallSpec → Client
  | CallSpec.boot cbid =>
    match BootNotification c cbid with
    | Except.ok r => r.client
    | Except.error _ => c
  | CallSpec.heartbeat =>
    match Heartbeat c with
    | Except.ok r => r.client
    | Except.error _ => c
  | CallSpec.authorize idTag =>
    match Authorize c idTag with
    | Except.ok r => r.client
    | Except.error _ => c
  | CallSpec.startTx cid idTag =>
    match StartTransaction c cid idTag with
    | Except.ok r => r.client
    | Except.error _ => c
  | CallSpec.stopTx tid =>
    match StopTransaction c tid with
    | Except.ok r => r.client
    | Except.error _ => c
  | CallSpec.meter vs =>
    match MeterValues c vs with
    | Except.ok r => r.client
    | Except.error _ => c
  | CallSpec.statusNote st =>
    match StatusNotification c st with
    | Except.ok r => r.client
    | Except.error _ => c
  | CallSpec.dataTx v m =>
    match DataTransfer c v m with
    | Except.ok r => r.client
    | Except.error _ => c

def runHistory (c : Client) : List CallSpec → Client
  | [] => c
  | s :: rest => runHistory (runCall c s) rest

/-- Go's `xml.Header` constant (what the code would have to prepend for
the body to carry the standard XML declaration header; it does not). -/
def xmlHeader : String := "<?xml version=\"1.0\" encoding=\"UTF-8\"?>\n"

/-! ## Basic lemmas: strings, sanitisation, escaping -/

theorem mk_toList (s : String) : String.mk s.toList = s := rfl

theorem toList_mk (l : List Char) : (String.mk l).toList = l := rfl

theorem toList_eq_nil_iff (s : String) : s.toList = [] ↔ s = "" := by
  cases s
  simp [String.toList, String.ext_iff]

theorem sanitizeL_eq_nil_iff (l : List Char) : sanitizeL l = [] ↔ l = [] := by
  simp [sanitizeL]

theorem sanitizeL_eq_self {l : List Char} (h : ∀ c ∈ l, inCharacterRange c = true) :
    sanitizeL l = l := by
  induction l with
  | nil => rfl
  | cons c rest ih =>
    have hc := h c (List.mem_cons_self c rest)
    simp only [sanitizeL, List.map_cons, sanitizeChar, hc, if_true]
    have := ih fun d hd => h d (List.mem_cons_of_mem c hd)
    simpa [sanitizeL] using this

theorem sanitizeStr_eq_self {s : String} (h : strOk s) : sanitizeStr s = s := by
  unfold sanitizeStr
  rw [sanitizeL_eq_self h, mk_toList]

theorem sanitizeStr_eq_empty_iff (s : String) : sanitizeStr s = "" ↔ s = "" := by
  constructor
  · intro h
    have : (sanitizeStr s).toList = [] := by rw [h]; rfl
    rw [sanitizeStr, toList_mk, sanitizeL_eq_nil_iff] at this
    exact (toList_eq_nil_iff s).mp this
  · intro h; subst h; rfl

theorem escapeChar_ne_nil (c : Char) : escapeChar c ≠ [] := by
  unfold escapeChar
  split_ifs <;> simp

theorem escapeChar_head_ne_lt (c : Char) :
    ∃ c0 t0, escapeChar c = c0 :: t0 ∧ c0 ≠ '<' := by
  unfold escapeChar
  split_ifs with h1 h2 h3 h4 h5 h6 h7 h8 h9
  · exact ⟨_, _, rfl, by decide⟩
  · exact ⟨_, _, rfl, by decide⟩
  · exact ⟨_, _, rfl, by decide⟩
  · exact ⟨_, _, rfl, by decide⟩
  · exact ⟨_, _, rfl, by decide⟩
  · exact ⟨_, _, rfl, by decide⟩
  · exact ⟨_, _, rfl, by decide⟩
  · exact ⟨_, _, rfl, by decide⟩
  · exact ⟨_, _, rfl, h4⟩
  · exact ⟨_, _, rfl, by decide⟩

theorem escapeL_length_ge (l : List Char) : l.length ≤ (escapeL l).length := by
  induction l with
  | nil => simp [escapeL]
  | cons c rest ih =>
    have hpos : 0 < (escapeChar c).length :=
      List.length_pos.mpr (escapeChar_ne_nil c)
    simp only [escapeL, List.length_append, List.length_cons]
    omega

theorem escapeL_head (l : List Char) (h : l ≠ []) :
    ∃ c0 t0, escapeL l = c0 :: t0 ∧ c0 ≠ '<' := by
  match l with
  | c :: rest =>
    obtain ⟨c0, t0, he, hne⟩ := escapeChar_head_ne_lt c
    exact ⟨c0, t0 ++ escapeL rest, by simp [escapeL, he], hne⟩

theorem escapeL_eq_self {l : List Char} (h : ∀ c ∈ l, escapeChar c = [c]) :
    escapeL l = l := by
  induction l with
  | nil => rfl
  | cons c rest ih =>
    have hc := h c (List.mem_cons_self c rest)
    show escapeChar c ++ escapeL rest = c :: rest
    rw [hc, ih fun d hd => h d (List.mem_cons_of_mem c hd)]
    rfl

/-! ## Correctness of the character-data lexer on escaped output -/

theorem takeUntilSemi_append (ent l : List Char) (h : ';' ∉ ent) :
    takeUntilSemi (ent ++ ';' :: l) = some (ent, l) := by
  induction ent with
  | nil => simp [takeUntilSemi]
  | cons c rest ih =>
    have hc : c ≠ ';' := fun e => h (e ▸ List.mem_cons_self c rest)
    have hr := ih fun m => h (List.mem_cons_of_mem c m)
    simp [takeUntilSemi, hc, hr]

theorem lexTextF_entity_step (f : Nat) (ent : List Char) (ch : Char)
    (l t r : List Char) (hsemi : ';' ∉ ent) (hent : decodeEntity ent = some ch)
    (hrec : lexTextF f l = some (t, r)) :
    lexTextF (f + 1) ('&' :: (ent ++ ';' :: l)) = some (ch :: t, r) := by
  simp [lexTextF, takeUntilSemi_append ent l hsemi, hent, hrec]

theorem lexTextF_lit_step (f : Nat) (c : Char) (l t r : List Char)
    (h1 : c ≠ '<') (h2 : c ≠ '&') (hrec : lexTextF f l = some (t, r)) :
    lexTextF (f + 1) (c :: l) = some (c :: t, r) := by
  simp [lexTextF, h1, h2, hrec]

theorem escape_step_ent (c : Char) (ent : List Char)
    (hE : escapeChar c = '&' :: (ent ++ [';'])) (hsemi : ';' ∉ ent)
    (hdec : decodeEntity ent = some (sanitizeChar c)) (f : Nat)
    (l t r : List Char) (hrec : lexTextF f l = some (t, r)) :
    lexTextF (f + 1) (escapeChar c ++ l) = some (sanitizeChar c :: t, r) := by
  rw [hE]
  have hshape : ('&' :: (ent ++ [';'])) ++ l = '&' :: (ent ++ ';' :: l) := by simp
  rw [hshape]
  exact lexTextF_entity_step f ent (sanitizeChar c) l t r hsemi hdec hrec

theorem lexTextF_escape (cs : List Char) : ∀ f r, cs.length + 1 ≤ f →
    (r = [] ∨ ∃ t, r = '<' :: t) →
    lexTextF f (escapeL cs ++ r) = some (sanitizeL cs, r) := by
  induction cs with
  | nil =>
    intro f r hf hr
    cases f with
    | zero => omega
    | succ f =>
      rcases hr with rfl | ⟨t, rfl⟩
      · simp [escapeL, lexTextF, sanitizeL]
      · simp [escapeL, lexTextF, sanitizeL]
  | cons c cs ih =>
    intro f r hf hr
    cases f with
    | zero => omega
    | succ f =>
      have hrec := ih f r (by simp at hf ⊢; omega) hr
      show lexTextF (f + 1) ((escapeChar c ++ escapeL cs) ++ r) = _
      rw [List.append_assoc]
      show _ = some (sanitizeChar c :: sanitizeL cs, r)
      by_cases h1 : c = '"'
      · subst h1; exact escape_step_ent _ ['#','3','4'] (by decide) (by decide) (by decide) f _ _ _ hrec
      by_cases h2 : c = '\''
      · subst h2; exact escape_step_ent _ ['#','3','9'] (by decide) (by decide) (by decide) f _ _ _ hrec
      by_cases h3 : c = '&'
      · subst h3; exact escape_step_ent _ ['a','m','p'] (by decide) (by decide) (by decide) f _ _ _ hrec
      by_cases h4 : c = '<'
      · subst h4; exact escape_step_ent _ ['l','t'] (by decide) (by decide) (by decide) f _ _ _ hrec
      by_cases h5 : c = '>'
      · subst h5; exact escape_step_ent _ ['g','t'] (by decide) (by decide) (by decide) f _ _ _ hrec
      by_cases h6 : c = '\t'
      · subst h6; exact escape_step_ent _ ['#','x','9'] (by decide) (by decide) (by decide) f _ _ _ hrec
      by_cases h7 : c = '\n'
      · subst h7; exact escape_step_ent _ ['#','x','A'] (by decide) (by decide) (by decide) f _ _ _ hrec
      by_cases h8 : c = '\r'
      · subst h8; exact escape_step_ent _ ['#','x','D'] (by decide) (by decide) (by decide) f _ _ _ hrec
      by_cases h9 : inCharacterRange c = true
      · have hE : escapeChar c = [c] := by
          simp [escapeChar, h1, h2, h3, h4, h5, h6, h7, h8, h9]
        have hS : sanitizeChar c = c := by simp [sanitizeChar, h9]
        rw [hE, hS, List.singleton_append]
        exact lexTextF_lit_step f c _ _ _ h4 h3 hrec
      · have hE : escapeChar c = ['�'] := by
          simp [escapeChar, h1, h2, h3, h4, h5, h6, h7, h8, h9]
        have hS : sanitizeChar c = '�' := by simp [sanitizeChar, h9]
        rw [hE, hS, List.singleton_append]
        exact lexTextF_lit_step f '�' _ _ _ (by decide) (by decide) hrec

/-! ## Correctness of the element parser on rendered output -/

theorem tagOkB_iff (nm : List Char) :
    tagOkB nm = true ↔ nm ≠ [] ∧ ∀ c ∈ nm, isNameChar c = true := by
  simp [tagOkB, List.all_eq_true, List.isEmpty_iff]

theorem spanName_gt (nm l : List Char) (h : ∀ c ∈ nm, isNameChar c = true) :
    spanName (nm ++ '>' :: l) = (nm, '>' :: l) := by
  induction nm with
  | nil =>
    have hgt : isNameChar '>' = false := by decide
    simp [spanName, hgt]
  | cons c rest ih =>
    have hc := h c (List.mem_cons_self c rest)
    have hr := ih fun d hd => h d (List.mem_cons_of_mem c hd)
    simp [spanName, hc, hr]

theorem lexName_append (nm l : List Char) (hne : nm ≠ [])
    (h : ∀ c ∈ nm, isNameChar c = true) :
    lexName (nm ++ '>' :: l) = some (nm, l) := by
  cases nm with
  | nil => exact absurd rfl hne
  | cons c rest =>
    have hsp := spanName_gt (c :: rest) l h
    simp only [List.cons_append] at hsp
    simp [lexName, hsp]

theorem expectClose_append (nm r : List Char) (hne : nm ≠ [])
    (h : ∀ c ∈ nm, isNameChar c = true) :
    expectClose nm ('<' :: '/' :: (nm ++ '>' :: r)) = some r := by
  simp [expectClose, lexName_append nm r hne h]

theorem parseNodesF_stop (f : Nat) (t : List Char) (hf : 1 ≤ f) :
    parseNodesF f ('<' :: '/' :: t) = some ([], '<' :: '/' :: t) := by
  cases f with
  | zero => omega
  | succ f => simp [parseNodesF]

theorem cpNil : ChildrenParse [] [] := by
  intro f t hf
  simpa using parseNodesF_stop f t (by omega)

theorem cpText (cs : List Char) (hne : cs ≠ []) :
    ChildrenParse (escapeL cs) [XmlNode.text (String.mk (sanitizeL cs))] := by
  intro f t hf
  obtain ⟨c0, t0, hE, hlt⟩ := escapeL_head cs hne
  cases f with
  | zero => omega
  | succ f =>
    have hlen : 1 ≤ cs.length := List.length_pos.mpr hne
    have hesc := escapeL_length_ge cs
    have hEL : (escapeL cs).length + 1 ≤ f + 1 := hf
    have hlex : lexTextF (f + 1) (escapeL cs ++ '<' :: '/' :: t)
        = some (sanitizeL cs, '<' :: '/' :: t) :=
      lexTextF_escape cs (f + 1) _ (by omega) (Or.inr ⟨'/' :: t, rfl⟩)
    rw [hE] at hlex ⊢
    simp only [List.cons_append] at hlex ⊢
    simp [parseNodesF, hlt, hlex, parseNodesF_stop f t (by omega)]

theorem cpElem (nm inner rest : List Char) (ks ns : List XmlNode)
    (htag : tagOkB nm = true) (hinner : ChildrenParse inner ks)
    (hrest : ChildrenParse rest ns) :
    ChildrenParse (elemRender nm inner ++ rest)
      (XmlNode.elem (String.mk nm) ks :: ns) := by
  obtain ⟨hne, hall⟩ := (tagOkB_iff nm).mp htag
  intro f t hf
  have hlen : (elemRender nm inner).length = inner.length + 2 * nm.length + 5 := by
    simp [elemRender]
    omega
  have hnm1 : 1 ≤ nm.length := List.length_pos.mpr hne
  cases f with
  | zero => omega
  | succ f =>
    have hflen : (elemRender nm inner).length + rest.length + 1 ≤ f + 1 := by
      simpa [List.length_append] using hf
    rw [hlen] at hflen
    have hshape : (elemRender nm inner ++ rest) ++ '<' :: '/' :: t
        = '<' :: (nm ++ '>' :: (inner ++ '<' :: '/' :: (nm ++ '>' :: (rest ++ '<' :: '/' :: t)))) := by
      simp [elemRender]
    rw [hshape]
    obtain ⟨c0, nm0, hnmE⟩ : ∃ c0 nm0, nm = c0 :: nm0 := by
      cases nm with
      | nil => exact absurd rfl hne
      | cons a b => exact ⟨a, b, rfl⟩
    have hc0 : isNameChar c0 = true := hall c0 (by rw [hnmE]; exact List.mem_cons_self c0 nm0)
    have hslash : c0 ≠ '/' := by
      intro e
      rw [e] at hc0
      exact absurd hc0 (by decide)
    have hhead : nm.head? ≠ some '/' := by
      rw [hnmE]
      simpa using hslash
    have hlexN := lexName_append nm (inner ++ '<' :: '/' :: (nm ++ '>' :: (rest ++ '<' :: '/' :: t))) hne hall
    have hchild := hinner f (nm ++ '>' :: (rest ++ '<' :: '/' :: t)) (by omega)
    have hclose := expectClose_append nm (rest ++ '<' :: '/' :: t) hne hall
    have hsib := hrest f t (by omega)
    simp [parseNodesF, hhead, hlexN, hchild, hclose, hsib]

theorem parseOneF_render (nm inner : List Char) (ks : List XmlNode)
    (htag : tagOkB nm = true) (hinner : ChildrenParse inner ks) :
    ∀ f r, (elemRender nm inner).length ≤ f →
      parseOneF f (elemRender nm inner ++ r) = some (XmlNode.elem (String.mk nm) ks, r) := by
  obtain ⟨hne, hall⟩ := (tagOkB_iff nm).mp htag
  intro f r hf
  have hlen : (elemRender nm inner).length = inner.length + 2 * nm.length + 5 := by
    simp [elemRender]
    omega
  have hnm1 : 1 ≤ nm.length := List.length_pos.mpr hne
  cases f with
  | zero => omega
  | succ f =>
    have hshape : elemRender nm inner ++ r
        = '<' :: (nm ++ '>' :: (inner ++ '<' :: '/' :: (nm ++ '>' :: r))) := by
      simp [elemRender]
    rw [hshape]
    have hlexN := lexName_append nm (inner ++ '<' :: '/' :: (nm ++ '>' :: r)) hne hall
    have hchild := hinner f (nm ++ '>' :: r) (by omega)
    have hclose := expectClose_append nm r hne hall
    simp [parseOneF, hlexN, hchild, hclose]

theorem parseDoc_render (nm inner : List Char) (ks : List XmlNode)
    (htag : tagOkB nm = true) (hinner : ChildrenParse inner ks) :
    parseDoc (String.mk (elemRender nm inner)) = some (XmlNode.elem (String.mk nm) ks) := by
  have hlex : lexTextF ((elemRender nm inner).length + 1) (elemRender nm inner)
      = some ([], elemRender nm inner) := by
    show lexTextF ((elemRender nm inner).length + 1)
        ('<' :: (nm ++ '>' :: inner ++ '<' :: '/' :: nm ++ ['>'])) = _
    simp [lexTextF, elemRender]
  have hone := parseOneF_render nm inner ks htag hinner
    ((elemRender nm inner).length + 1) [] (by omega)
  rw [List.append_nil] at hone
  simp [parseDoc, toList_mk, hlex, hone]

/-! ## Go integer rendering and parsing round-trips -/

theorem digitsValAux_append (dig : Char → Option Nat) (b : Nat) (xs : List Char) :
    ∀ ys acc, digitsValAux dig b acc (xs ++ ys) =
      match digitsValAux dig b acc xs with
      | none => none
      | some m => digitsValAux dig b m ys := by
  induction xs with
  | nil => intro ys acc; simp [digitsValAux]
  | cons c rest ih =>
    intro ys acc
    cases hd : dig c <;> simp [digitsValAux, hd, ih]

theorem digitToChar_facts : ∀ d, d < 10 →
    decVal (digitToChar d) = some d ∧ isGoSpace (digitToChar d) = false ∧
    escapeChar (digitToChar d) = [digitToChar d] ∧
    inCharacterRange (digitToChar d) = true ∧
    digitToChar d ≠ '+' ∧ digitToChar d ≠ '-' ∧
    isDigitChar (digitToChar d) = true := by decide

theorem natDigitsF_ne_nil (f n : Nat) (h : n < f) : natDigitsF f n ≠ [] := by
  cases f with
  | zero => omega
  | succ f =>
    rw [natDigitsF]
    split_ifs <;> simp

theorem natDigitsF_mem : ∀ f n c, c ∈ natDigitsF f n → ∃ d, d < 10 ∧ c = digitToChar d := by
  intro f
  induction f with
  | zero => intro n c hc; simp [natDigitsF] at hc
  | succ f ih =>
    intro n c hc
    rw [natDigitsF] at hc
    by_cases h : n < 10
    · rw [if_pos h] at hc
      simp at hc
      exact ⟨n, h, hc⟩
    · rw [if_neg h] at hc
      simp at hc
      rcases hc with h1 | h2
      · exact ih (n / 10) c h1
      · exact ⟨n % 10, Nat.mod_lt n (by omega), h2⟩

theorem natDigitsF_val : ∀ f n acc, n < f →
    digitsValAux decVal 10 acc (natDigitsF f n)
      = some (acc * 10 ^ (natDigitsF f n).length + n) := by
  intro f
  induction f with
  | zero => intro n acc h; omega
  | succ f ih =>
    intro n acc h
    by_cases hn : n < 10
    · rw [natDigitsF, if_pos hn]
      have hd := (digitToChar_facts n hn).1
      simp [digitsValAux, hd]
    · rw [natDigitsF, if_neg hn]
      have h10 : n / 10 < f := by
        have := Nat.div_lt_self (by omega : 0 < n) (by omega : 1 < 10)
        omega
      rw [digitsValAux_append, ih (n / 10) acc h10]
      have hd := (digitToChar_facts (n % 10) (Nat.mod_lt n (by omega))).1
      simp only [digitsValAux, hd, List.length_append, List.length_cons,
        List.length_nil]
      have hmod : n / 10 * 10 + n % 10 = n := by omega
      have hstep : (acc * 10 ^ (natDigitsF f (n / 10)).length + n / 10) * 10 + n % 10
          = acc * (10 ^ (natDigitsF f (n / 10)).length * 10) + (n / 10 * 10 + n % 10) := by
        ring
      rw [hstep, hmod, ← pow_succ]

theorem natRepr_val (n : Nat) : digitsVal decVal 10 (natRepr n) = some n := by
  have hne : natRepr n ≠ [] := natDigitsF_ne_nil (n + 1) n (Nat.lt_succ_self n)
  have hval : digitsValAux decVal 10 0 (natRepr n)
      = some (0 * 10 ^ (natRepr n).length + n) :=
    natDigitsF_val (n + 1) n 0 (Nat.lt_succ_self n)
  rcases hL : natRepr n with _ | ⟨c, rest⟩
  · exact absurd hL hne
  · rw [hL] at hval
    simpa [digitsVal] using hval

theorem natRepr_mem (n : Nat) : ∀ c ∈ natRepr n, ∃ d, d < 10 ∧ c = digitToChar d :=
  fun c hc => natDigitsF_mem (n + 1) n c hc

theorem goParseInt64_natRepr (n : Nat) (h : n ≤ 2 ^ 63 - 1) :
    goParseInt64 (natRepr n) = some (Int.ofNat n) := by
  have hne : natRepr n ≠ [] := natDigitsF_ne_nil (n + 1) n (Nat.lt_succ_self n)
  have hval := natRepr_val n
  rcases hL : natRepr n with _ | ⟨c, rest⟩
  · exact absurd hL hne
  · obtain ⟨d, hd, rfl⟩ := natRepr_mem n c (by rw [hL]; exact List.mem_cons_self _ _)
    have hfacts := digitToChar_facts d hd
    rw [hL] at hval
    simp [goParseInt64, hfacts.2.2.2.2.1, hfacts.2.2.2.2.2.1, hval, h]
    omega

theorem minus_facts : isGoSpace '-' = false ∧ escapeChar '-' = ['-'] ∧
    inCharacterRange '-' = true := by decide

theorem intReprL_mem (n : Int) : ∀ c ∈ intReprL n,
    isGoSpace c = false ∧ escapeChar c = [c] ∧ inCharacterRange c = true := by
  intro c hc
  cases n with
  | ofNat m =>
    obtain ⟨d, hd, rfl⟩ := natRepr_mem m c hc
    have hfacts := digitToChar_facts d hd
    exact ⟨hfacts.2.1, hfacts.2.2.1, hfacts.2.2.2.1⟩
  | negSucc m =>
    simp only [intReprL, List.mem_cons] at hc
    rcases hc with rfl | hc
    · exact ⟨minus_facts.1, minus_facts.2.1, minus_facts.2.2⟩
    · obtain ⟨d, hd, rfl⟩ := natRepr_mem (m + 1) c hc
      have hfacts := digitToChar_facts d hd
      exact ⟨hfacts.2.1, hfacts.2.2.1, hfacts.2.2.2.1⟩

theorem intReprL_ne_nil (n : Int) : intReprL n ≠ [] := by
  cases n with
  | ofNat m => exact natDigitsF_ne_nil (m + 1) m (Nat.lt_succ_self m)
  | negSucc m => simp [intReprL]

theorem goParseInt64_intRepr (n : Int) (hlo : -(2 ^ 63) ≤ n) (hhi : n ≤ 2 ^ 63 - 1) :
    goParseInt64 (intReprL n) = some n := by
  cases n with
  | ofNat m =>
    have hm : m ≤ 2 ^ 63 - 1 := by
      have hcast : Int.ofNat m = (m : Int) := rfl
      rw [hcast] at hhi
      omega
    simpa [intReprL] using goParseInt64_natRepr m hm
  | negSucc m =>
    have heq := Int.negSucc_eq m
    have hm : m + 1 ≤ 2 ^ 63 := by
      rw [heq] at hlo
      have h2 : ((2 : Int) ^ 63) = ((2 ^ 63 : Nat) : Int) := by norm_num
      rw [h2] at hlo
      omega
    have hv := natRepr_val (m + 1)
    show goParseInt64 ('-' :: natRepr (m + 1)) = some (Int.negSucc m)
    simp [goParseInt64, hv, hm, heq]
    omega

theorem dropWhile_eq_self_of (p : Char → Bool) (l : List Char)
    (h : ∀ c ∈ l, p c = false) : List.dropWhile p l = l := by
  cases l with
  | nil => rfl
  | cons c rest => simp [List.dropWhile_cons, h c (List.mem_cons_self c rest)]

theorem trimSpaceL_eq_self (l : List Char) (h : ∀ c ∈ l, isGoSpace c = false) :
    trimSpaceL l = l := by
  have h1 : List.dropWhile isGoSpace l = l := dropWhile_eq_self_of _ _ h
  have h2 : List.dropWhile isGoSpace l.reverse = l.reverse :=
    dropWhile_eq_self_of _ _ fun c hc => h c (List.mem_reverse.mp hc)
  unfold trimSpaceL
  rw [h1, h2, List.reverse_reverse]

theorem goAtoiData_intRepr (n : Int) (hlo : -(2 ^ 63) ≤ n) (hhi : n ≤ 2 ^ 63 - 1) :
    goAtoiData (intRepr n) = some n := by
  have htrim : trimSpaceL (intReprL n) = intReprL n :=
    trimSpaceL_eq_self _ fun c hc => ((intReprL_mem n) c hc).1
  have hparse := goParseInt64_intRepr n hlo hhi
  rcases hL : intReprL n with _ | ⟨c, rest⟩
  · exact absurd hL (intReprL_ne_nil n)
  · have hred : goAtoiData (intRepr n) = goParseInt64 (trimSpaceL (intReprL n)) := by
      unfold intRepr
      rw [hL]
      rfl
    rw [hred, htrim, hparse]

theorem escapeL_intReprL (n : Int) : escapeL (intReprL n) = intReprL n :=
  escapeL_eq_self fun c hc => ((intReprL_mem n) c hc).2.1

theorem sanitizeL_intReprL (n : Int) : sanitizeL (intReprL n) = intReprL n :=
  sanitizeL_eq_self fun c hc => ((intReprL_mem n) c hc).2.2

/-! ## Parsing rendered fields -/

theorem chardata_leafChildren (s : String) : chardataOf (leafChildren s) = s := by
  by_cases h : s = ""
  · subst h; rfl
  · simp only [leafChildren, if_neg h]
    rfl

theorem cpStrField (tag : String) (s : String) (rest : List Char) (ns : List XmlNode)
    (htag : tagOkB tag.toList = true) (hrest : ChildrenParse rest ns) :
    ChildrenParse (strField tag s ++ rest)
      (XmlNode.elem tag (leafChildren (sanitizeStr s)) :: ns) := by
  by_cases h : s = ""
  · subst h
    have hcp := cpElem tag.toList [] rest [] ns htag cpNil hrest
    simpa [strField, escapeL, leafChildren, sanitizeStr, sanitizeL, mk_toList] using hcp
  · have hne : s.toList ≠ [] := fun e => h ((toList_eq_nil_iff s).mp e)
    have hcp := cpElem tag.toList (escapeL s.toList) rest
      [XmlNode.text (String.mk (sanitizeL s.toList))] ns htag (cpText s.toList hne) hrest
    have hsan : sanitizeStr s ≠ "" := fun e => h ((sanitizeStr_eq_empty_iff s).mp e)
    simp only [leafChildren, if_neg hsan]
    simpa [strField, sanitizeStr, mk_toList] using hcp

theorem cpIntField (tag : String) (n : Int) (rest : List Char) (ns : List XmlNode)
    (htag : tagOkB tag.toList = true) (hrest : ChildrenParse rest ns) :
    ChildrenParse (intField tag n ++ rest)
      (XmlNode.elem tag [XmlNode.text (intRepr n)] :: ns) := by
  have hne : intReprL n ≠ [] := intReprL_ne_nil n
  have hcp := cpElem tag.toList (escapeL (intReprL n)) rest
    [XmlNode.text (String.mk (sanitizeL (intReprL n)))] ns htag (cpText _ hne) hrest
  rw [escapeL_intReprL, sanitizeL_intReprL] at hcp
  simpa [intField, intRepr, mk_toList] using hcp

theorem cpStrOmitField (tag : String) (s : String) (rest : List Char) (ns : List XmlNode)
    (htag : tagOkB tag.toList = true) (hrest : ChildrenParse rest ns) :
    ChildrenParse (strOmitField tag s ++ rest)
      ((if s = "" then [] else [XmlNode.elem tag (leafChildren (sanitizeStr s))]) ++ ns) := by
  by_cases h : s = ""
  · simp only [strOmitField, if_pos h, List.nil_append]
    simpa using hrest
  · simp only [strOmitField, if_neg h]
    simpa using cpStrField tag s rest ns htag hrest

theorem cpIntOmitField (tag : String) (n : Int) (rest : List Char) (ns : List XmlNode)
    (htag : tagOkB tag.toList = true) (hrest : ChildrenParse rest ns) :
    ChildrenParse (intOmitField tag n ++ rest)
      ((if n = 0 then [] else [XmlNode.elem tag [XmlNode.text (intRepr n)]]) ++ ns) := by
  by_cases h : n = 0
  · simp only [intOmitField, if_pos h, List.nil_append]
    simpa using hrest
  · simp only [intOmitField, if_neg h]
    simpa using cpIntField tag n rest ns htag hrest

theorem cpOptStrField (tag : String) (o : Option String) (rest : List Char)
    (ns : List XmlNode) (htag : tagOkB tag.toList = true)
    (hrest : ChildrenParse rest ns) :
    ChildrenParse (optStrField tag o ++ rest) (optChildNodes tag o ++ ns) := by
  cases o with
  | none => simpa [optStrField, optChildNodes] using hrest
  | some s => simpa [optStrField, optChildNodes] using cpStrField tag s rest ns htag hrest

theorem cpMeterInner (vs : List MeterValue) (rest : List Char) (ns : List XmlNode)
    (hrest : ChildrenParse rest ns) :
    ChildrenParse (meterValuesInner vs ++ rest)
      (vs.map (fun _ => XmlNode.elem "meterValue" []) ++ ns) := by
  induction vs with
  | nil => simpa [meterValuesInner] using hrest
  | cons v vs ih =>
    have hcp := cpElem "meterValue".toList [] (meterValuesInner vs ++ rest) []
      (vs.map (fun _ => XmlNode.elem "meterValue" []) ++ ns) (by decide) cpNil ih
    simpa [meterValuesInner, mk_toList, List.append_assoc] using hcp

/-! ## Round trips for the request shapes -/

theorem chardata_single (s : String) : chardataOf [XmlNode.text s] = s := rfl

theorem parse_encodeBootNotificationRequest (cbid : String) :
    parseDoc (encodeBootNotificationRequest ⟨cbid⟩)
      = some (XmlNode.elem "BootNotificationRequest"
          [XmlNode.elem "chargeBoxIdentity" (leafChildren (sanitizeStr cbid))]) := by
  have hinner : ChildrenParse (strField "chargeBoxIdentity" cbid)
      [XmlNode.elem "chargeBoxIdentity" (leafChildren (sanitizeStr cbid))] := by
    simpa using cpStrField "chargeBoxIdentity" cbid [] [] (by decide) cpNil
  have h := parseDoc_render "BootNotificationRequest".toList _ _ (by decide) hinner
  simpa [encodeBootNotificationRequest, encodeBootNotificationRequestL, mk_toList] using h

theorem roundTrip_BootNotificationRequest (cbid : String) (h : strOk cbid) :
    decodeBootNotificationRequest (encodeBootNotificationRequest ⟨cbid⟩) = some ⟨cbid⟩ := by
  have hp := parse_encodeBootNotificationRequest cbid
  rw [sanitizeStr_eq_self h] at hp
  simp [decodeBootNotificationRequest, hp, unmarshalBootNotificationRequest,
    chardata_leafChildren]

theorem parse_encodeHeartbeatRequest :
    parseDoc (encodeHeartbeatRequest ⟨⟩) = some (XmlNode.elem "HeartbeatRequest" []) := by
  have h := parseDoc_render "HeartbeatRequest".toList [] [] (by decide) cpNil
  simpa [encodeHeartbeatRequest, encodeHeartbeatRequestL, mk_toList] using h

theorem roundTrip_HeartbeatRequest :
    decodeHeartbeatRequest (encodeHeartbeatRequest ⟨⟩) = some ⟨⟩ := by
  simp [decodeHeartbeatRequest, parse_encodeHeartbeatRequest, unmarshalHeartbeatRequest]

theorem parse_encodeAuthorizeRequest (idTag : String) :
    parseDoc (encodeAuthorizeRequest ⟨idTag⟩)
      = some (XmlNode.elem "AuthorizeRequest"
          [XmlNode.elem "idTag" (leafChildren (sanitizeStr idTag))]) := by
  have hinner : ChildrenParse (strField "idTag" idTag)
      [XmlNode.elem "idTag" (leafChildren (sanitizeStr idTag))] := by
    simpa using cpStrField "idTag" idTag [] [] (by decide) cpNil
  have h := parseDoc_render "AuthorizeRequest".toList _ _ (by decide) hinner
  simpa [encodeAuthorizeRequest, encodeAuthorizeRequestL, mk_toList] using h

theorem roundTrip_AuthorizeRequest (idTag : String) (h : strOk idTag) :
    decodeAuthorizeRequest (encodeAuthorizeRequest ⟨idTag⟩) = some ⟨idTag⟩ := by
  have hp := parse_encodeAuthorizeRequest idTag
  rw [sanitizeStr_eq_self h] at hp
  simp [decodeAuthorizeRequest, hp, unmarshalAuthorizeRequest, chardata_leafChildren]

theorem parse_encodeStartTransactionRequest (cid : Int) (idTag : String) :
    parseDoc (encodeStartTransactionRequest ⟨cid, idTag⟩)
      = some (XmlNode.elem "StartTransactionRequest"
          [XmlNode.elem "connectorId" [XmlNode.text (intRepr cid)],
           XmlNode.elem "idTag" (leafChildren (sanitizeStr idTag))]) := by
  have h2 : ChildrenParse (strField "idTag" idTag)
      [XmlNode.elem "idTag" (leafChildren (sanitizeStr idTag))] := by
    simpa using cpStrField "idTag" idTag [] [] (by decide) cpNil
  have hinner := cpIntField "connectorId" cid (strField "idTag" idTag)
    [XmlNode.elem "idTag" (leafChildren (sanitizeStr idTag))] (by decide) h2
  have h := parseDoc_render "StartTransactionRequest".toList _ _ (by decide) hinner
  simpa [encodeStartTransactionRequest, encodeStartTransactionRequestL, mk_toList] using h

theorem roundTrip_StartTransactionRequest (cid : Int) (idTag : String)
    (hs : strOk idTag) (hlo : -(2 ^ 63) ≤ cid) (hhi : cid ≤ 2 ^ 63 - 1) :
    decodeStartTransactionRequest (encodeStartTransactionRequest ⟨cid, idTag⟩)
      = some ⟨cid, idTag⟩ := by
  have hp := parse_encodeStartTransactionRequest cid idTag
  rw [sanitizeStr_eq_self hs] at hp
  simp [decodeStartTransactionRequest, hp, unmarshalStartTransactionRequest,
    chardata_single, chardata_leafChildren, goAtoiData_intRepr cid hlo hhi]

theorem parse_encodeStopTransactionRequest (tid : Int) :
    parseDoc (encodeStopTransactionRequest ⟨tid⟩)
      = some (XmlNode.elem "StopTransactionRequest"
          [XmlNode.elem "transactionId" [XmlNode.text (intRepr tid)]]) := by
  have hinner : ChildrenParse (intField "transactionId" tid)
      [XmlNode.elem "transactionId" [XmlNode.text (intRepr tid)]] := by
    simpa using cpIntField "transactionId" tid [] [] (by decide) cpNil
  have h := parseDoc_render "StopTransactionRequest".toList _ _ (by decide) hinner
  simpa [encodeStopTransactionRequest, encodeStopTransactionRequestL, mk_toList] using h

theorem roundTrip_StopTransactionRequest (tid : Int)
    (hlo : -(2 ^ 63) ≤ tid) (hhi : tid ≤ 2 ^ 63 - 1) :
    decodeStopTransactionRequest (encodeStopTransactionRequest ⟨tid⟩) = some ⟨tid⟩ := by
  have hp := parse_encodeStopTransactionRequest tid
  simp [decodeStopTransactionRequest, hp, unmarshalStopTransactionRequest,
    chardata_single, goAtoiData_intRepr tid hlo hhi]

theorem unmarshalMeter_go (vs : List MeterValue) : ∀ acc,
    unmarshalMeterValuesRequest ⟨acc⟩ (vs.map fun _ => XmlNode.elem "meterValue" [])
      = some ⟨acc ++ vs.map fun _ => MeterValue.mk⟩ := by
  induction vs with
  | nil => intro acc; simp [unmarshalMeterValuesRequest]
  | cons v vs ih =>
    intro acc
    have step : unmarshalMeterValuesRequest ⟨acc⟩
        ((v :: vs).map fun _ => XmlNode.elem "meterValue" [])
        = unmarshalMeterValuesRequest ⟨acc ++ [MeterValue.mk]⟩
            (vs.map fun _ => XmlNode.elem "meterValue" []) := rfl
    rw [step, ih (acc ++ [MeterValue.mk])]
    simp

theorem mapConst_mv (vs : List MeterValue) :
    (vs.map fun _ => MeterValue.mk) = vs := by
  induction vs with
  | nil => rfl
  | cons v vs ih =>
    cases v
    simp [ih]

theorem parse_encodeMeterValuesRequest (vs : List MeterValue) :
    parseDoc (encodeMeterValuesRequest ⟨vs⟩)
      = some (XmlNode.elem "MeterValuesRequest"
          (vs.map fun _ => XmlNode.elem "meterValue" [])) := by
  have hinner : ChildrenParse (meterValuesInner vs)
      (vs.map fun _ => XmlNode.elem "meterValue" []) := by
    simpa using cpMeterInner vs [] [] cpNil
  have h := parseDoc_render "MeterValuesRequest".toList _ _ (by decide) hinner
  simpa [encodeMeterValuesRequest, encodeMeterValuesRequestL, mk_toList] using h

theorem roundTrip_MeterValuesRequest (vs : List MeterValue) :
    decodeMeterValuesRequest (encodeMeterValuesRequest ⟨vs⟩) = some ⟨vs⟩ := by
  have hu := unmarshalMeter_go vs []
  rw [mapConst_mv] at hu
  unfold decodeMeterValuesRequest
  rw [parse_encodeMeterValuesRequest vs]
  simpa using hu

theorem parse_encodeStatusNotificationRequest (ec sd : String) :
    parseDoc (encodeStatusNotificationRequest ⟨⟨ec, sd⟩⟩)
      = some (XmlNode.elem "StatusNotificationRequest"
          [XmlNode.elem "status"
            ((if ec = "" then [] else
                [XmlNode.elem "errorCode" (leafChildren (sanitizeStr ec))]) ++
             (if sd = "" then [] else
                [XmlNode.elem "statusDetail" (leafChildren (sanitizeStr sd))]))]) := by
  have h2 : ChildrenParse (strOmitField "statusDetail" sd)
      (if sd = "" then [] else
        [XmlNode.elem "statusDetail" (leafChildren (sanitizeStr sd))]) := by
    simpa using cpStrOmitField "statusDetail" sd [] [] (by decide) cpNil
  have h1 := cpStrOmitField "errorCode" ec (strOmitField "statusDetail" sd)
    (if sd = "" then [] else
      [XmlNode.elem "statusDetail" (leafChildren (sanitizeStr sd))]) (by decide) h2
  have hst := cpElem "status".toList (statusInner ⟨ec, sd⟩) []
    ((if ec = "" then [] else
        [XmlNode.elem "errorCode" (leafChildren (sanitizeStr ec))]) ++
     (if sd = "" then [] else
        [XmlNode.elem "statusDetail" (leafChildren (sanitizeStr sd))])) []
    (by decide) (by simpa [statusInner] using h1) cpNil
  have h := parseDoc_render "StatusNotificationRequest".toList _ _ (by decide)
    (by simpa using hst)
  simpa [encodeStatusNotificationRequest, encodeStatusNotificationRequestL, mk_toList] using h

theorem roundTrip_StatusNotificationRequest (ec sd : String)
    (h1 : strOk ec) (h2 : strOk sd) :
    decodeStatusNotificationRequest (encodeStatusNotificationRequest ⟨⟨ec, sd⟩⟩)
      = some ⟨⟨ec, sd⟩⟩ := by
  have hp := parse_encodeStatusNotificationRequest ec sd
  rw [sanitizeStr_eq_self h1, sanitizeStr_eq_self h2] at hp
  unfold decodeStatusNotificationRequest
  rw [hp]
  by_cases hec : ec = "" <;> by_cases hsd : sd = "" <;>
    simp [hec, hsd, unmarshalStatusNotificationRequest, unmarshalStatus,
      chardata_leafChildren]

theorem parse_encodeDataTransferRequest (vid md : String) :
    parseDoc (encodeDataTransferRequest ⟨vid, md⟩)
      = some (XmlNode.elem "DataTransferRequest"
          [XmlNode.elem "vendorId" (leafChildren (sanitizeStr vid)),
           XmlNode.elem "messageData" (leafChildren (sanitizeStr md))]) := by
  have h2 : ChildrenParse (strField "messageData" md)
      [XmlNode.elem "messageData" (leafChildren (sanitizeStr md))] := by
    simpa using cpStrField "messageData" md [] [] (by decide) cpNil
  have hinner := cpStrField "vendorId" vid (strField "messageData" md)
    [XmlNode.elem "messageData" (leafChildren (sanitizeStr md))] (by decide) h2
  have h := parseDoc_render "DataTransferRequest".toList _ _ (by decide) hinner
  simpa [encodeDataTransferRequest, encodeDataTransferRequestL, mk_toList] using h

theorem roundTrip_DataTransferRequest (vid md : String)
    (hv : strOk vid) (hm : strOk md) :
    decodeDataTransferRequest (encodeDataTransferRequest ⟨vid, md⟩)
      = some ⟨vid, md⟩ := by
  have hp := parse_encodeDataTransferRequest vid md
  rw [sanitizeStr_eq_self hv, sanitizeStr_eq_self hm] at hp
  simp [decodeDataTransferRequest, hp, unmarshalDataTransferRequest, chardata_leafChildren]

/-! ## Parsed form of the encoded response shapes (for the omission claim) -/

theorem parse_encodeBootNotificationResponse (st ct : String) (iv hb : Int) :
    parseDoc (encodeBootNotificationResponse ⟨st, ct, iv, hb⟩)
      = some (XmlNode.elem "BootNotificationResponse"
          (XmlNode.elem "status" (leafChildren (sanitizeStr st)) ::
            ((if ct = "" then [] else
                [XmlNode.elem "currentTime" (leafChildren (sanitizeStr ct))]) ++
             ((if iv = 0 then [] else
                [XmlNode.elem "interval" [XmlNode.text (intRepr iv)]]) ++
              (if hb = 0 then [] else
                [XmlNode.elem "heartbeat" [XmlNode.text (intRepr hb)]]))))) := by
  have h4 : ChildrenParse (intOmitField "heartbeat" hb)
      (if hb = 0 then [] else [XmlNode.elem "heartbeat" [XmlNode.text (intRepr hb)]]) := by
    simpa using cpIntOmitField "heartbeat" hb [] [] (by decide) cpNil
  have h3 := cpIntOmitField "interval" iv (intOmitField "heartbeat" hb)
    (if hb = 0 then [] else [XmlNode.elem "heartbeat" [XmlNode.text (intRepr hb)]])
    (by decide) h4
  have h2 := cpStrOmitField "currentTime" ct
    (intOmitField "interval" iv ++ intOmitField "heartbeat" hb)
    ((if iv = 0 then [] else [XmlNode.elem "interval" [XmlNode.text (intRepr iv)]]) ++
      (if hb = 0 then [] else [XmlNode.elem "heartbeat" [XmlNode.text (intRepr hb)]]))
    (by decide) h3
  have h1 := cpStrField "status" st
    (strOmitField "currentTime" ct ++
      (intOmitField "interval" iv ++ intOmitField "heartbeat" hb))
    ((if ct = "" then [] else
        [XmlNode.elem "currentTime" (leafChildren (sanitizeStr ct))]) ++
     ((if iv = 0 then [] else [XmlNode.elem "interval" [XmlNode.text (intRepr iv)]]) ++
      (if hb = 0 then [] else [XmlNode.elem "heartbeat" [XmlNode.text (intRepr hb)]])))
    (by decide) h2
  have h := parseDoc_render "BootNotificationResponse".toList _ _ (by decide) h1
  simpa [encodeBootNotificationResponse, encodeBootNotificationResponseL, mk_toList,
    List.append_assoc] using h

theorem parse_encodeHeartbeatResponse (ct : String) :
    parseDoc (encodeHeartbeatResponse ⟨ct⟩)
      = some (XmlNode.elem "HeartbeatResponse"
          (if ct = "" then [] else
            [XmlNode.elem "currentTime" (leafChildren (sanitizeStr ct))])) := by
  have hinner : ChildrenParse (strOmitField "currentTime" ct)
      (if ct = "" then [] else
        [XmlNode.elem "currentTime" (leafChildren (sanitizeStr ct))]) := by
    simpa using cpStrOmitField "currentTime" ct [] [] (by decide) cpNil
  have h := parseDoc_render "HeartbeatResponse".toList _ _ (by decide) hinner
  simpa [encodeHeartbeatResponse, encodeHeartbeatResponseL, mk_toList] using h

theorem parse_encodeAuthorizeResponse (st : String) (ed pid : Option String) :
    parseDoc (encodeAuthorizeResponse ⟨⟨st, ed, pid⟩⟩)
      = some (XmlNode.elem "AuthorizeResponse"
          [XmlNode.elem "idTagInfo"
            (XmlNode.elem "status" (leafChildren (sanitizeStr st)) ::
              (optChildNodes "expiryDate" ed ++ optChildNodes "parentIdTag" pid))]) := by
  have h3 : ChildrenParse (optStrField "parentIdTag" pid)
      (optChildNodes "parentIdTag" pid) := by
    simpa using cpOptStrField "parentIdTag" pid [] [] (by decide) cpNil
  have h2 := cpOptStrField "expiryDate" ed (optStrField "parentIdTag" pid)
    (optChildNodes "parentIdTag" pid) (by decide) h3
  have h1 := cpStrField "status" st
    (optStrField "expiryDate" ed ++ optStrField "parentIdTag" pid)
    (optChildNodes "expiryDate" ed ++ optChildNodes "parentIdTag" pid)
    (by decide) h2
  have hti := cpElem "idTagInfo".toList (idTagInfoInner ⟨st, ed, pid⟩) []
    (XmlNode.elem "status" (leafChildren (sanitizeStr st)) ::
      (optChildNodes "expiryDate" ed ++ optChildNodes "parentIdTag" pid)) []
    (by decide) (by simpa [idTagInfoInner, List.append_assoc] using h1) cpNil
  have h := parseDoc_render "AuthorizeResponse".toList _ _ (by decide) (by simpa using hti)
  simpa [encodeAuthorizeResponse, encodeAuthorizeResponseL, mk_toList] using h

theorem parse_encodeDataTransferResponse (st da : String) :
    parseDoc (encodeDataTransferResponse ⟨st, da⟩)
      = some (XmlNode.elem "DataTransferResponse"
          (XmlNode.elem "status" (leafChildren (sanitizeStr st)) ::
            (if da = "" then [] else
              [XmlNode.elem "data" (leafChildren (sanitizeStr da))]))) := by
  have h2 : ChildrenParse (strOmitField "data" da)
      (if da = "" then [] else [XmlNode.elem "data" (leafChildren (sanitizeStr da))]) := by
    simpa using cpStrOmitField "data" da [] [] (by decide) cpNil
  have h1 := cpStrField "status" st (strOmitField "data" da)
    (if da = "" then [] else [XmlNode.elem "data" (leafChildren (sanitizeStr da))])
    (by decide) h2
  have h := parseDoc_render "DataTransferResponse".toList _ _ (by decide) h1
  simpa [encodeDataTransferResponse, encodeDataTransferResponseL, mk_toList] using h

/-! ## Dispatcher lemmas -/

/-- With any non-nil logger, `sendRequest` completes without panicking, its
outcome and events are those of the logger-free kernel, its log output is
the failure message (if any), and the client is returned untouched. -/
theorem sendRequest_eq_core {ρ : Type} (c : Client) (lg : Logger)
    (hlg : c.logger = some lg) (action requestXML : String)
    (dec : String → Option ρ) :
    sendRequest c action requestXML dec = Except.ok
      { result := (dispatchCore c.httpClient c.endpoint action requestXML dec).1
        events := (dispatchCore c.httpClient c.endpoint action requestXML dec).2
        logs :=
          match (dispatchCore c.httpClient c.endpoint action requestXML dec).1 with
          | Except.error e => loggerLogs lg (errorLogMsg e)
          | Except.ok _ => []
        client := c } := by
  simp only [sendRequest, dispatchCore, hlg, loggerError]
  cases hpost : c.httpClient (c.endpoint ++ "/" ++ action) "application/xml" requestXML with
  | fail msg => simp [errorLogMsg]
  | ok resp =>
    by_cases hst : resp.statusCode = 200
    · simp only [hst, ne_eq, not_true_eq_false, if_false, reduceIte]
      cases hbody : resp.bodyRead with
      | error msg => simp [hbody, errorLogMsg]
      | ok respBody =>
        cases hdec : dec respBody with
        | none => simp [hbody, hdec, errorLogMsg]
        | some r => simp [hbody, hdec, errorLogMsg]
    · simp [hst, errorLogMsg]

theorem postsOf_core {ρ : Type} (t : Transport) (e a b : String)
    (dec : String → Option ρ) :
    postsOf (dispatchCore t e a b dec).2 = [(e ++ "/" ++ a, "application/xml", b)] := by
  unfold dispatchCore
  cases hpost : t (e ++ "/" ++ a) "application/xml" b with
  | fail msg => simp [hpost, postsOf]
  | ok resp =>
    by_cases hst : resp.statusCode = 200
    · simp only [hpost, hst, ne_eq, not_true_eq_false, if_false, reduceIte]
      cases hbody : resp.bodyRead with
      | error msg => simp [hbody, postsOf]
      | ok respBody =>
        cases hdec : dec respBody with
        | none => simp [hbody, hdec, postsOf]
        | some r => simp [hbody, hdec, postsOf]
    · simp [hpost, hst, postsOf]

/-- Whatever the logger and the transport do, a dispatch that returns at
all returns the receiver unchanged. -/
theorem sendRequest_client {ρ : Type} (c : Client) (action b : String)
    (dec : String → Option ρ) (out : DispatchResult ρ)
    (h : sendRequest c action b dec = Except.ok out) : out.client = c := by
  simp only [sendRequest] at h
  repeat' split at h
  all_goals first
    | exact Except.noConfusion h
    | (injection h with h2; rw [← h2])

theorem wrapResp_ok {ρ : Type} (x : Except String (DispatchResult ρ))
    (out : CallResult ρ) (h : wrapResp x = Except.ok out) :
    ∃ d, x = Except.ok d ∧ out.events = d.events ∧ out.logs = d.logs ∧
      out.client = d.client ∧
      ((out.response.isSome = true ∧ out.err = none) ∨
        (out.response = none ∧ out.err.isSome = true)) := by
  cases x with
  | error p => simp [wrapResp] at h
  | ok d =>
    cases hres : d.result with
    | error e =>
      simp only [wrapResp, hres] at h
      injection h with h2
      subst h2
      exact ⟨d, rfl, rfl, rfl, rfl, Or.inr ⟨rfl, rfl⟩⟩
    | ok r =>
      simp only [wrapResp, hres] at h
      injection h with h2
      subst h2
      exact ⟨d, rfl, rfl, rfl, rfl, Or.inl ⟨rfl, rfl⟩⟩

theorem wrapErr_ok {ρ : Type} (x : Except String (DispatchResult ρ))
    (out : ErrCallResult) (h : wrapErr x = Except.ok out) :
    ∃ d, x = Except.ok d ∧ out.events = d.events ∧ out.logs = d.logs ∧
      out.client = d.client := by
  cases x with
  | error p => simp [wrapErr] at h
  | ok d =>
    cases hres : d.result with
    | error e =>
      simp only [wrapErr, hres] at h
      injection h with h2
      subst h2
      exact ⟨d, rfl, rfl, rfl, rfl⟩
    | ok r =>
      simp only [wrapErr, hres] at h
      injection h with h2
      subst h2
      exact ⟨d, rfl, rfl, rfl, rfl⟩

theorem wrapResp_client {ρ : Type} (c : Client) (action b : String)
    (dec : String → Option ρ) (out : CallResult ρ)
    (h : wrapResp (sendRequest c action b dec) = Except.ok out) : out.client = c := by
  obtain ⟨d, hd, _, _, hcl, _⟩ := wrapResp_ok _ out h
  rw [hcl]
  exact sendRequest_client c action b dec d hd

theorem wrapErr_client {ρ : Type} (c : Client) (action b : String)
    (dec : String → Option ρ) (out : ErrCallResult)
    (h : wrapErr (sendRequest c action b dec) = Except.ok out) : out.client = c := by
  obtain ⟨d, hd, _, _, hcl⟩ := wrapErr_ok _ out h
  rw [hcl]
  exact sendRequest_client c action b dec d hd

/-- No call changes the client: whatever a history's calls did, the state
threaded out of each call is the state passed in. -/
theorem runCall_client (c : Client) (s : CallSpec) : runCall c s = c := by
  cases s with
  | boot cbid =>
    simp only [runCall]
    cases h : BootNotification c cbid with
    | error p => rfl
    | ok r => exact wrapResp_client c _ _ _ r h
  | heartbeat =>
    simp only [runCall]
    cases h : Heartbeat c with
    | error p => rfl
    | ok r => exact wrapResp_client c _ _ _ r h
  | authorize idTag =>
    simp only [runCall]
    cases h : Authorize c idTag with
    | error p => rfl
    | ok r => exact wrapResp_client c _ _ _ r h
  | startTx cid idTag =>
    simp only [runCall]
    cases h : StartTransaction c cid idTag with
    | error p => rfl
    | ok r => exact wrapResp_client c _ _ _ r h
  | stopTx tid =>
    simp only [runCall]
    cases h : StopTransaction c tid with
    | error p => rfl
    | ok r => exact wrapResp_client c _ _ _ r h
  | meter vs =>
    simp only [runCall]
    cases h : MeterValues c vs with
    | error p => rfl
    | ok r => exact wrapErr_client c _ _ _ r h
  | statusNote st =>
    simp only [runCall]
    cases h : StatusNotification c st with
    | error p => rfl
    | ok r => exact wrapErr_client c _ _ _ r h
  | dataTx v m =>
    simp only [runCall]
    cases h : DataTransfer c v m with
    | error p => rfl
    | ok r => exact wrapResp_client c _ _ _ r h

theorem runHistory_id (c : Client) (hist : List CallSpec) : runHistory c hist = c := by
  induction hist generalizing c with
  | nil => rfl
  | cons s rest ih => rw [runHistory, runCall_client, ih]

theorem sendRequest_eq_core' {ρ : Type} (e : String) (d : Transport) (lg : Logger)
    (a b : String) (dec : String → Option ρ) :
    sendRequest (Client.mk e d (some lg)) a b dec = Except.ok
      { result := (dispatchCore d e a b dec).1
        events := (dispatchCore d e a b dec).2
        logs :=
          match (dispatchCore d e a b dec).1 with
          | Except.error er => loggerLogs lg (errorLogMsg er)
          | Except.ok _ => []
        client := Client.mk e d (some lg) } :=
  sendRequest_eq_core (Client.mk e d (some lg)) lg rfl a b dec

theorem wrapResp_isSome {ρ : Type} (e : String) (d : Transport) (lg : Logger)
    (a b : String) (dec : String → Option ρ) :
    (wrapResp (sendRequest (Client.mk e d (some lg)) a b dec)).toOption.isSome = true := by
  rw [sendRequest_eq_core' e d lg a b dec]
  cases hres : (dispatchCore d e a b dec).1 <;> simp [wrapResp, hres, Except.toOption]

theorem wrapErr_isSome {ρ : Type} (e : String) (d : Transport) (lg : Logger)
    (a b : String) (dec : String → Option ρ) :
    (wrapErr (sendRequest (Client.mk e d (some lg)) a b dec)).toOption.isSome = true := by
  rw [sendRequest_eq_core' e d lg a b dec]
  cases hres : (dispatchCore d e a b dec).1 <;> simp [wrapErr, hres, Except.toOption]

theorem wrapRespProj_eq {ρ : Type} (e : String) (d : Transport) (lg1 lg2 : Logger)
    (a b : String) (dec : String → Option ρ) :
    (wrapResp (sendRequest (Client.mk e d (some lg1)) a b dec)).toOption.map
        (fun r => (r.response, r.err, r.events))
      = (wrapResp (sendRequest (Client.mk e d (some lg2)) a b dec)).toOption.map
        (fun r => (r.response, r.err, r.events)) := by
  rw [sendRequest_eq_core' e d lg1 a b dec, sendRequest_eq_core' e d lg2 a b dec]
  cases hres : (dispatchCore d e a b dec).1 <;> simp [wrapResp, hres, Except.toOption]

theorem wrapErrProj_eq {ρ : Type} (e : String) (d : Transport) (lg1 lg2 : Logger)
    (a b : String) (dec : String → Option ρ) :
    (wrapErr (sendRequest (Client.mk e d (some lg1)) a b dec)).toOption.map
        (fun r => (r.err, r.events))
      = (wrapErr (sendRequest (Client.mk e d (some lg2)) a b dec)).toOption.map
        (fun r => (r.err, r.events)) := by
  rw [sendRequest_eq_core' e d lg1 a b dec, sendRequest_eq_core' e d lg2 a b dec]
  cases hres : (dispatchCore d e a b dec).1 <;> simp [wrapErr, hres, Except.toOption]

theorem wrapResp_posts {ρ : Type} (e : String) (d : Transport) (lg : Logger)
    (a b : String) (dec : String → Option ρ) :
    (wrapResp (sendRequest (Client.mk e d (some lg)) a b dec)).toOption.map
        (fun r => postsOf r.events)
      = some [(e ++ "/" ++ a, "application/xml", b)] := by
  rw [sendRequest_eq_core' e d lg a b dec]
  cases hres : (dispatchCore d e a b dec).1 <;>
    simp [wrapResp, hres, Except.toOption, postsOf_core d e a b dec]

theorem wrapErr_posts {ρ : Type} (e : String) (d : Transport) (lg : Logger)
    (a b : String) (dec : String → Option ρ) :
    (wrapErr (sendRequest (Client.mk e d (some lg)) a b dec)).toOption.map
        (fun r => postsOf r.events)
      = some [(e ++ "/" ++ a, "application/xml", b)] := by
  rw [sendRequest_eq_core' e d lg a b dec]
  cases hres : (dispatchCore d e a b dec).1 <;>
    simp [wrapErr, hres, Except.toOption, postsOf_core d e a b dec]

/-! ## The claims -/

/-- C1: whenever the transport returns an HTTP status other than 200 (for
example 201 or 404), `sendRequest` returns the RemoteStatusError-category
error `non-200 status code received: <status>`, and its event trace holds
only the POST — the response body is neither read nor decoded into the
response shape, whatever body the transport supplied. -/
theorem claim_C1_non200_short_circuits {ρ : Type} (c : Client) (lg : Logger)
    (hlg : c.logger = some lg) (action requestXML : String)
    (dec : String → Option ρ) (code : Nat) (statusText : String)
    (bodyRead : Except String String)
    (hpost : c.httpClient (c.endpoint ++ "/" ++ action) "application/xml" requestXML
      = PostResult.ok ⟨code, statusText, bodyRead⟩)
    (hcode : code ≠ 200) :
    sendRequest c action requestXML dec = Except.ok
      { result := Except.error (SendError.remoteStatus
          ("non-200 status code received: " ++ statusText))
        events := [Event.post (c.endpoint ++ "/" ++ action) "application/xml" requestXML]
        logs := loggerLogs lg ("non-200 status code received: " ++ statusText)
        client := c } ∧
    (∀ out, sendRequest c action requestXML dec = Except.ok out →
      Event.readBody ∉ out.events ∧ ∀ b, Event.decodeAttempt b ∉ out.events) := by
  have h1 : sendRequest c action requestXML dec = Except.ok
      { result := Except.error (SendError.remoteStatus
          ("non-200 status code received: " ++ statusText))
        events := [Event.post (c.endpoint ++ "/" ++ action) "application/xml" requestXML]
        logs := loggerLogs lg ("non-200 status code received: " ++ statusText)
        client := c } := by
    simp only [sendRequest, hlg, loggerError, hpost]
    simp [hcode]
  refine ⟨h1, ?_⟩
  intro out hout
  rw [h1] at hout
  injection hout with h2
  subst h2
  refine ⟨by simp, fun b => by simp⟩

/-- Witness for C1 at statuses 201 and 404, each carrying a well-formed
decodable XML body that is never consulted. -/
theorem claim_C1_witness :
    sendRequest
      (Client.mk "http://central"
        (fun _ _ _ => PostResult.ok ⟨201, "201 Created",
          Except.ok "<bootNotificationResponse><status>Accepted</status></bootNotificationResponse>"⟩)
        (some Logger.nop))
      "BootNotification" (encodeBootNotificationRequest ⟨"CP-001"⟩)
      decodeBootNotificationResponse
      = Except.ok
        { result := Except.error (SendError.remoteStatus
            "non-200 status code received: 201 Created")
          events := [Event.post "http://central/BootNotification" "application/xml"
            (encodeBootNotificationRequest ⟨"CP-001"⟩)]
          logs := []
          client := Client.mk "http://central"
            (fun _ _ _ => PostResult.ok ⟨201, "201 Created",
              Except.ok "<bootNotificationResponse><status>Accepted</status></bootNotificationResponse>"⟩)
            (some Logger.nop) } ∧
    sendRequest
      (Client.mk "http://central"
        (fun _ _ _ => PostResult.ok ⟨404, "404 Not Found",
          Except.ok "<bootNotificationResponse><status>Accepted</status></bootNotificationResponse>"⟩)
        (some Logger.nop))
      "BootNotification" (encodeBootNotificationRequest ⟨"CP-001"⟩)
      decodeBootNotificationResponse
      = Except.ok
        { result := Except.error (SendError.remoteStatus
            "non-200 status code received: 404 Not Found")
          events := [Event.post "http://central/BootNotification" "application/xml"
            (encodeBootNotificationRequest ⟨"CP-001"⟩)]
          logs := []
          client := Client.mk "http://central"
            (fun _ _ _ => PostResult.ok ⟨404, "404 Not Found",
              Except.ok "<bootNotificationResponse><status>Accepted</status></bootNotificationResponse>"⟩)
            (some Logger.nop) } := by
  constructor
  · exact (claim_C1_non200_short_circuits _ Logger.nop rfl "BootNotification"
      (encodeBootNotificationRequest ⟨"CP-001"⟩) decodeBootNotificationResponse
      201 "201 Created" _ rfl (by decide)).1
  · exact (claim_C1_non200_short_circuits _ Logger.nop rfl "BootNotification"
      (encodeBootNotificationRequest ⟨"CP-001"⟩) decodeBootNotificationResponse
      404 "404 Not Found" _ rfl (by decide)).1

set_option maxRecDepth 100000 in
/-- C5: `BootNotification` with identity `CP-001` marshals a body that
contains `<chargeBoxIdentity>CP-001</chargeBoxIdentity>`, and decoding the
spec's stub response body yields status `Accepted`, the given time string,
and interval 300 (with the omitted heartbeat staying zero). -/
theorem claim_C5_bootNotification_scenario :
    containsSub (encodeBootNotificationRequest ⟨"CP-001"⟩).toList
      "<chargeBoxIdentity>CP-001</chargeBoxIdentity>".toList = true ∧
    decodeBootNotificationResponse
      "<bootNotificationResponse><status>Accepted</status><currentTime>2024-01-01T00:00:00Z</currentTime><interval>300</interval></bootNotificationResponse>"
      = some ⟨"Accepted", "2024-01-01T00:00:00Z", 300, 0⟩ := by
  exact ⟨by decide, by decide⟩

/-- C7: each value-returning method (`BootNotification`, `Heartbeat`,
`Authorize`, `StartTransaction`, `StopTransaction`, `DataTransfer`) that
returns at all returns either a populated response with a nil error or a
nil response with an error — never both. -/
theorem claim_C7_response_xor_error (c : Client) (cbid idTag vid md : String)
    (cid tid : Int) :
    (∀ out, BootNotification c cbid = Except.ok out →
      (out.response.isSome = true ∧ out.err = none) ∨
      (out.response = none ∧ out.err.isSome = true)) ∧
    (∀ out, Heartbeat c = Except.ok out →
      (out.response.isSome = true ∧ out.err = none) ∨
      (out.response = none ∧ out.err.isSome = true)) ∧
    (∀ out, Authorize c idTag = Except.ok out →
      (out.response.isSome = true ∧ out.err = none) ∨
      (out.response = none ∧ out.err.isSome = true)) ∧
    (∀ out, StartTransaction c cid idTag = Except.ok out →
      (out.response.isSome = true ∧ out.err = none) ∨
      (out.response = none ∧ out.err.isSome = true)) ∧
    (∀ out, StopTransaction c tid = Except.ok out →
      (out.response.isSome = true ∧ out.err = none) ∨
      (out.response = none ∧ out.err.isSome = true)) ∧
    (∀ out, DataTransfer c vid md = Except.ok out →
      (out.response.isSome = true ∧ out.err = none) ∨
      (out.response = none ∧ out.err.isSome = true)) := by
  refine ⟨?_, ?_, ?_, ?_, ?_, ?_⟩ <;>
    (intro out h
     obtain ⟨d, _, _, _, _, hdi⟩ := wrapResp_ok _ out h
     exact hdi)

/-- Witness for C7: a transport failure on `StopTransaction` lands in the
nil-response, non-nil-error side of the dichotomy. -/
theorem claim_C7_witness :
    ((⟨none, some (SendError.transportError "refused"),
        [Event.post "http://cs/StopTransaction" "application/xml"
          (encodeStopTransactionRequest ⟨42⟩)], [],
        Client.mk "http://cs" (fun _ _ _ => PostResult.fail "refused")
          (some Logger.nop)⟩ : CallResult StopTransactionResponse).response.isSome = true ∧
      (⟨none, some (SendError.transportError "refused"),
        [Event.post "http://cs/StopTransaction" "application/xml"
          (encodeStopTransactionRequest ⟨42⟩)], [],
        Client.mk "http://cs" (fun _ _ _ => PostResult.fail "refused")
          (some Logger.nop)⟩ : CallResult StopTransactionResponse).err = none) ∨
    ((⟨none, some (SendError.transportError "refused"),
        [Event.post "http://cs/StopTransaction" "application/xml"
          (encodeStopTransactionRequest ⟨42⟩)], [],
        Client.mk "http://cs" (fun _ _ _ => PostResult.fail "refused")
          (some Logger.nop)⟩ : CallResult StopTransactionResponse).response = none ∧
      (⟨none, some (SendError.transportError "refused"),
        [Event.post "http://cs/StopTransaction" "application/xml"
          (encodeStopTransactionRequest ⟨42⟩)], [],
        Client.mk "http://cs" (fun _ _ _ => PostResult.fail "refused")
          (some Logger.nop)⟩ : CallResult StopTransactionResponse).err.isSome = true) :=
  (claim_C7_response_xor_error
    (Client.mk "http://cs" (fun _ _ _ => PostResult.fail "refused") (some Logger.nop))
    "" "" "" "" 0 42).2.2.2.2.1 _ rfl

/-- C8: per-action calls consult no state from prior calls: any history of
prior calls leaves the client exactly as it was, `StopTransaction` after
any history (in particular with no prior `StartTransaction`) is the very
same call — same issued request, same result — as with no history, and the
dispatcher accepts it (no client-side precondition check). -/
theorem claim_C8_stateless (c : Client) (hist : List CallSpec) (tid : Int)
    (e : String) (lgOpt : Option Logger) (d : Transport) :
    runHistory c hist = c ∧
    StopTransaction (runHistory c hist) tid = StopTransaction c tid ∧
    StopTransaction (runHistory c hist) 42 = StopTransaction c 42 ∧
    (StopTransaction (runHistory (NewClient e lgOpt d) hist) 42).toOption.isSome
      = true := by
  have h := runHistory_id c hist
  have h2 := runHistory_id (NewClient e lgOpt d) hist
  refine ⟨h, by rw [h], by rw [h], ?_⟩
  rw [h2]
  cases lgOpt with
  | none =>
    exact wrapResp_isSome e d Logger.nop "StopTransaction"
      (encodeStopTransactionRequest ⟨42⟩) decodeStopTransactionResponse
  | some lg =>
    exact wrapResp_isSome e d lg "StopTransaction"
      (encodeStopTransactionRequest ⟨42⟩) decodeStopTransactionResponse

/-- C10: no dispatch mutates the client — `sendRequest` and every
per-action method return the receiver exactly as it was — and
`SetHTTPClient` replaces only the transport handle, keeping endpoint and
logger. -/
theorem claim_C10_no_mutation (c : Client) (h : Transport)
    (cbid idTag vid md : String) (cid tid : Int) (vs : List MeterValue)
    (st : Ocpp.Status) (action body : String) :
    (SetHTTPClient c h).endpoint = c.endpoint ∧
    (SetHTTPClient c h).logger = c.logger ∧
    (SetHTTPClient c h).httpClient = h ∧
    (∀ {ρ : Type} (dec : String → Option ρ) out,
      sendRequest c action body dec = Except.ok out → out.client = c) ∧
    (∀ out, BootNotification c cbid = Except.ok out → out.client = c) ∧
    (∀ out, Heartbeat c = Except.ok out → out.client = c) ∧
    (∀ out, Authorize c idTag = Except.ok out → out.client = c) ∧
    (∀ out, StartTransaction c cid idTag = Except.ok out → out.client = c) ∧
    (∀ out, StopTransaction c tid = Except.ok out → out.client = c) ∧
    (∀ out, MeterValues c vs = Except.ok out → out.client = c) ∧
    (∀ out, StatusNotification c st = Except.ok out → out.client = c) ∧
    (∀ out, DataTransfer c vid md = Except.ok out → out.client = c) := by
  refine ⟨rfl, rfl, rfl, ?_, ?_, ?_, ?_, ?_, ?_, ?_, ?_, ?_⟩
  · intro ρ dec out hout
    exact sendRequest_client c action body dec out hout
  · intro out hout
    exact wrapResp_client c _ _ _ out hout
  · intro out hout
    exact wrapResp_client c _ _ _ out hout
  · intro out hout
    exact wrapResp_client c _ _ _ out hout
  · intro out hout
    exact wrapResp_client c _ _ _ out hout
  · intro out hout
    exact wrapResp_client c _ _ _ out hout
  · intro out hout
    exact wrapErr_client c _ _ _ out hout
  · intro out hout
    exact wrapErr_client c _ _ _ out hout
  · intro out hout
    exact wrapResp_client c _ _ _ out hout

/-- Witness for C10: a `StopTransaction` over a failing stub transport
returns the client untouched, and `SetHTTPClient` keeps the endpoint. -/
theorem claim_C10_witness :
    (SetHTTPClient
      (Client.mk "http://cs" (fun _ _ _ => PostResult.fail "refused") (some Logger.nop))
      (fun _ _ _ => PostResult.fail "other")).endpoint = "http://cs" ∧
    (⟨none, some (SendError.transportError "refused"),
      [Event.post "http://cs/StopTransaction" "application/xml"
        (encodeStopTransactionRequest ⟨42⟩)], [],
      Client.mk "http://cs" (fun _ _ _ => PostResult.fail "refused")
        (some Logger.nop)⟩ : CallResult StopTransactionResponse).client
      = Client.mk "http://cs" (fun _ _ _ => PostResult.fail "refused")
        (some Logger.nop) := by
  constructor
  · exact (claim_C10_no_mutation
      (Client.mk "http://cs" (fun _ _ _ => PostResult.fail "refused") (some Logger.nop))
      (fun _ _ _ => PostResult.fail "other") "" "" "" "" 0 42 [] ⟨"", ""⟩ "" "").1
  · exact (claim_C10_no_mutation
      (Client.mk "http://cs" (fun _ _ _ => PostResult.fail "refused") (some Logger.nop))
      (fun _ _ _ => PostResult.fail "other") "" "" "" "" 0 42 [] ⟨"", ""⟩ "" "").2.2.2.2.2.2.2.2.1 _ rfl

set_option maxRecDepth 100000 in
/-- Counterexample to C2 as stated: the dispatcher decodes a response
whose status string `Bogus` is outside the closed `RegistrationStatus`
vocabulary, and hands it to the caller verbatim with no error — the code
attaches no validation to the enumerated string types. -/
theorem claim_C2_counterexample :
    ((BootNotification
        (Client.mk "http://cs"
          (fun _ _ _ => PostResult.ok ⟨200, "200 OK",
            Except.ok "<bootNotificationResponse><status>Bogus</status></bootNotificationResponse>"⟩)
          (some Logger.nop))
        "CP-001").toOption.map fun r => (r.response, r.err))
      = some (some ⟨"Bogus", "", 0, 0⟩, none) ∧
    "Bogus" ∉ registrationStatuses := by
  exact ⟨rfl, by decide⟩

set_option maxRecDepth 1000000 in
/-- C2 (amended): decoding preserves the status string literally: every
string from an enumerated field's closed vocabulary decodes to the
matching constant, but strings outside the closed set are accepted
verbatim as well — the invariant is not enforced by the code (`ErrorCode`
is extensible by design and the other vocabularies are unvalidated too). -/
theorem claim_C2_status_vocabulary :
    (∀ s ∈ registrationStatuses,
      decodeBootNotificationResponse
        ("<bootNotificationResponse><status>" ++ s ++ "</status></bootNotificationResponse>")
        = some ⟨s, "", 0, 0⟩) ∧
    (∀ s ∈ authorizationStatuses,
      decodeAuthorizeResponse
        ("<authorizeResponse><idTagInfo><status>" ++ s ++ "</status></idTagInfo></authorizeResponse>")
        = some ⟨⟨s, none, none⟩⟩) ∧
    (∀ s ∈ transactionEventStatuses,
      decodeStopTransactionResponse
        ("<stopTransactionResponse><status>" ++ s ++ "</status></stopTransactionResponse>")
        = some ⟨s⟩) ∧
    (∀ s ∈ dataTransferStatuses,
      decodeDataTransferResponse
        ("<dataTransferResponse><status>" ++ s ++ "</status></dataTransferResponse>")
        = some ⟨s, ""⟩) ∧
    decodeBootNotificationResponse
      "<bootNotificationResponse><status>Bogus</status></bootNotificationResponse>"
      = some ⟨"Bogus", "", 0, 0⟩ ∧
    "Bogus" ∉ registrationStatuses := by
  refine ⟨?_, ?_, ?_, ?_, ?_, ?_⟩ <;> decide

set_option maxRecDepth 100000 in
/-- Witness for C2 at `Accepted` in each closed vocabulary. -/
theorem claim_C2_witness :
    decodeBootNotificationResponse
      "<bootNotificationResponse><status>Accepted</status></bootNotificationResponse>"
      = some ⟨"Accepted", "", 0, 0⟩ ∧
    decodeAuthorizeResponse
      "<authorizeResponse><idTagInfo><status>Blocked</status></idTagInfo></authorizeResponse>"
      = some ⟨⟨"Blocked", none, none⟩⟩ ∧
    decodeStopTransactionResponse
      "<stopTransactionResponse><status>Rejected</status></stopTransactionResponse>"
      = some ⟨"Rejected"⟩ ∧
    decodeDataTransferResponse
      "<dataTransferResponse><status>Accepted</status></dataTransferResponse>"
      = some ⟨"Accepted", ""⟩ := by
  refine ⟨?_, ?_, ?_, ?_⟩
  · exact claim_C2_status_vocabulary.1 "Accepted" (by decide)
  · exact claim_C2_status_vocabulary.2.1 "Blocked" (by decide)
  · exact claim_C2_status_vocabulary.2.2.1 "Rejected" (by decide)
  · exact claim_C2_status_vocabulary.2.2.2.1 "Accepted" (by decide)

set_option maxRecDepth 100000 in
/-- Counterexample to C3 as stated: a dispatched request's body does not
begin with the standard XML declaration header — `xml.Marshal` emits none
and `sendRequest` never prepends `xml.Header`. -/
theorem claim_C3_counterexample :
    ((BootNotification
        (Client.mk "http://central" (fun _ _ _ => PostResult.fail "connection refused")
          (some Logger.nop))
        "CP-001").toOption.map fun r => postsOf r.events)
      = some [("http://central/BootNotification", "application/xml",
          encodeBootNotificationRequest ⟨"CP-001"⟩)] ∧
    isPrefixL xmlHeader.toList (encodeBootNotificationRequest ⟨"CP-001"⟩).toList = false ∧
    isPrefixL "<?xml".toList (encodeBootNotificationRequest ⟨"CP-001"⟩).toList = false := by
  refine ⟨rfl, by decide, by decide⟩

/-- C3 (amended): every per-action call performs exactly one HTTP POST, to
`endpoint ++ "/" ++ ActionName` with content type `application/xml`; the
body is the XML encoding of the action's request value, whose root element
is named after the action's request shape — but without any XML
declaration header. -/
theorem claim_C3_one_post_per_call (e : String) (d : Transport) (lg : Logger)
    (cbid idTag vid md : String) (cid tid : Int) (vs : List MeterValue)
    (st : Ocpp.Status) :
    ((BootNotification (Client.mk e d (some lg)) cbid).toOption.map
        fun r => postsOf r.events)
      = some [(e ++ "/" ++ "BootNotification", "application/xml",
          encodeBootNotificationRequest ⟨cbid⟩)] ∧
    (parseDoc (encodeBootNotificationRequest ⟨cbid⟩)).map rootName
      = some "BootNotificationRequest" ∧
    ((Heartbeat (Client.mk e d (some lg))).toOption.map fun r => postsOf r.events)
      = some [(e ++ "/" ++ "Heartbeat", "application/xml",
          encodeHeartbeatRequest ⟨⟩)] ∧
    (parseDoc (encodeHeartbeatRequest ⟨⟩)).map rootName = some "HeartbeatRequest" ∧
    ((Authorize (Client.mk e d (some lg)) idTag).toOption.map
        fun r => postsOf r.events)
      = some [(e ++ "/" ++ "Authorize", "application/xml",
          encodeAuthorizeRequest ⟨idTag⟩)] ∧
    (parseDoc (encodeAuthorizeRequest ⟨idTag⟩)).map rootName
      = some "AuthorizeRequest" ∧
    ((StartTransaction (Client.mk e d (some lg)) cid idTag).toOption.map
        fun r => postsOf r.events)
      = some [(e ++ "/" ++ "StartTransaction", "application/xml",
          encodeStartTransactionRequest ⟨cid, idTag⟩)] ∧
    (parseDoc (encodeStartTransactionRequest ⟨cid, idTag⟩)).map rootName
      = some "StartTransactionRequest" ∧
    ((StopTransaction (Client.mk e d (some lg)) tid).toOption.map
        fun r => postsOf r.events)
      = some [(e ++ "/" ++ "StopTransaction", "application/xml",
          encodeStopTransactionRequest ⟨tid⟩)] ∧
    (parseDoc (encodeStopTransactionRequest ⟨tid⟩)).map rootName
      = some "StopTransactionRequest" ∧
    ((MeterValues (Client.mk e d (some lg)) vs).toOption.map
        fun r => postsOf r.events)
      = some [(e ++ "/" ++ "MeterValues", "application/xml",
          encodeMeterValuesRequest ⟨vs⟩)] ∧
    (parseDoc (encodeMeterValuesRequest ⟨vs⟩)).map rootName
      = some "MeterValuesRequest" ∧
    ((StatusNotification (Client.mk e d (some lg)) st).toOption.map
        fun r => postsOf r.events)
      = some [(e ++ "/" ++ "StatusNotification", "application/xml",
          encodeStatusNotificationRequest ⟨st⟩)] ∧
    (parseDoc (encodeStatusNotificationRequest ⟨st.ErrorCode, st.StatusDetail⟩)).map rootName
      = some "StatusNotificationRequest" ∧
    ((DataTransfer (Client.mk e d (some lg)) vid md).toOption.map
        fun r => postsOf r.events)
      = some [(e ++ "/" ++ "DataTransfer", "application/xml",
          encodeDataTransferRequest ⟨vid, md⟩)] ∧
    (parseDoc (encodeDataTransferRequest ⟨vid, md⟩)).map rootName
      = some "DataTransferRequest" := by
  refine ⟨wrapResp_posts e d lg _ _ _, ?_, wrapResp_posts e d lg _ _ _, ?_,
    wrapResp_posts e d lg _ _ _, ?_, wrapResp_posts e d lg _ _ _, ?_,
    wrapResp_posts e d lg _ _ _, ?_, wrapErr_posts e d lg _ _ _, ?_,
    wrapErr_posts e d lg _ _ _, ?_, wrapResp_posts e d lg _ _ _, ?_⟩
  · rw [parse_encodeBootNotificationRequest cbid]; rfl
  · rw [parse_encodeHeartbeatRequest]; rfl
  · rw [parse_encodeAuthorizeRequest idTag]; rfl
  · rw [parse_encodeStartTransactionRequest cid idTag]; rfl
  · rw [parse_encodeStopTransactionRequest tid]; rfl
  · rw [parse_encodeMeterValuesRequest vs]; rfl
  · rw [parse_encodeStatusNotificationRequest st.ErrorCode st.StatusDetail]; rfl
  · rw [parse_encodeDataTransferRequest vid md]; rfl

/-- Witness for C3 with a concrete client and arguments. -/
theorem claim_C3_witness :
    ((StopTransaction
        (Client.mk "http://cs" (fun _ _ _ => PostResult.fail "refused") (some Logger.nop))
        42).toOption.map fun r => postsOf r.events)
      = some [("http://cs" ++ "/" ++ "StopTransaction", "application/xml",
          encodeStopTransactionRequest ⟨42⟩)] ∧
    (parseDoc (encodeStopTransactionRequest ⟨42⟩)).map rootName
      = some "StopTransactionRequest" :=
  ⟨(claim_C3_one_post_per_call "http://cs" (fun _ _ _ => PostResult.fail "refused")
      Logger.nop "" "" "" "" 0 42 [] ⟨"", ""⟩).2.2.2.2.2.2.2.2.1,
   (claim_C3_one_post_per_call "http://cs" (fun _ _ _ => PostResult.fail "refused")
      Logger.nop "" "" "" "" 0 42 [] ⟨"", ""⟩).2.2.2.2.2.2.2.2.2.1⟩

set_option maxRecDepth 100000 in
/-- Counterexample to C4 as stated: a request value whose string field
holds the character U+0000 (not representable in XML) does not round-trip:
Go's `EscapeText` writes U+FFFD in its place, so decoding the encoded
bytes yields a different value. -/
theorem claim_C4_counterexample :
    decodeBootNotificationRequest (encodeBootNotificationRequest ⟨"\x00"⟩)
      = some ⟨"�"⟩ ∧
    ("�" : String) ≠ "\x00" := by
  exact ⟨by decide, by decide⟩

/-- C4 (amended): for every action's request shape, encoding then decoding
the encoded bytes yields the original value on every field — `omitempty`
or not — provided the string fields hold only characters in the XML
character range (otherwise U+FFFD substitution loses the original, see the
counterexample) and the integer fields carry 64-bit values, which is all a
Go `int` can hold. -/
theorem claim_C4_roundTrip :
    (∀ r : BootNotificationRequest, strOk r.ChargeBoxIdentity →
      decodeBootNotificationRequest (encodeBootNotificationRequest r) = some r) ∧
    (∀ r : HeartbeatRequest,
      decodeHeartbeatRequest (encodeHeartbeatRequest r) = some r) ∧
    (∀ r : AuthorizeRequest, strOk r.IdTag →
      decodeAuthorizeRequest (encodeAuthorizeRequest r) = some r) ∧
    (∀ r : StartTransactionRequest, strOk r.IdTag →
      -(2 ^ 63) ≤ r.ConnectorId → r.ConnectorId ≤ 2 ^ 63 - 1 →
      decodeStartTransactionRequest (encodeStartTransactionRequest r) = some r) ∧
    (∀ r : StopTransactionRequest,
      -(2 ^ 63) ≤ r.TransactionId → r.TransactionId ≤ 2 ^ 63 - 1 →
      decodeStopTransactionRequest (encodeStopTransactionRequest r) = some r) ∧
    (∀ r : MeterValuesRequest,
      decodeMeterValuesRequest (encodeMeterValuesRequest r) = some r) ∧
    (∀ r : StatusNotificationRequest, strOk r.Status.ErrorCode →
      strOk r.Status.StatusDetail →
      decodeStatusNotificationRequest (encodeStatusNotificationRequest r) = some r) ∧
    (∀ r : DataTransferRequest, strOk r.VendorId → strOk r.MessageData →
      decodeDataTransferRequest (encodeDataTransferRequest r) = some r) := by
  refine ⟨?_, ?_, ?_, ?_, ?_, ?_, ?_, ?_⟩
  · intro r hr
    exact roundTrip_BootNotificationRequest r.ChargeBoxIdentity hr
  · intro r
    exact roundTrip_HeartbeatRequest
  · intro r hr
    exact roundTrip_AuthorizeRequest r.IdTag hr
  · intro r hs hlo hhi
    exact roundTrip_StartTransactionRequest r.ConnectorId r.IdTag hs hlo hhi
  · intro r hlo hhi
    exact roundTrip_StopTransactionRequest r.TransactionId hlo hhi
  · intro r
    exact roundTrip_MeterValuesRequest r.Values
  · intro r h1 h2
    exact roundTrip_StatusNotificationRequest r.Status.ErrorCode r.Status.StatusDetail h1 h2
  · intro r h1 h2
    exact roundTrip_DataTransferRequest r.VendorId r.MessageData h1 h2

set_option maxRecDepth 1000000 in
/-- Witness for C4 on concrete request values, including escaped special
characters, a negative integer, and an omitted-empty nested field. -/
theorem claim_C4_witness :
    decodeBootNotificationRequest (encodeBootNotificationRequest ⟨"CP-001"⟩)
      = some ⟨"CP-001"⟩ ∧
    decodeStartTransactionRequest (encodeStartTransactionRequest ⟨-42, "tag<&>\"quote"⟩)
      = some ⟨-42, "tag<&>\"quote"⟩ ∧
    decodeStatusNotificationRequest (encodeStatusNotificationRequest ⟨⟨"", "detail"⟩⟩)
      = some ⟨⟨"", "detail"⟩⟩ ∧
    decodeDataTransferRequest (encodeDataTransferRequest ⟨"vendor", "payload"⟩)
      = some ⟨"vendor", "payload"⟩ := by
  refine ⟨?_, ?_, ?_, ?_⟩
  · exact claim_C4_roundTrip.1 ⟨"CP-001"⟩ (by decide)
  · exact claim_C4_roundTrip.2.2.2.1 ⟨-42, "tag<&>\"quote"⟩ (by decide) (by decide) (by decide)
  · exact claim_C4_roundTrip.2.2.2.2.2.2.1 ⟨⟨"", "detail"⟩⟩ (by decide) (by decide)
  · exact claim_C4_roundTrip.2.2.2.2.2.2.2 ⟨"vendor", "payload"⟩ (by decide) (by decide)

/-- C9: `NewClient` replaces a nil logger by the no-op logger, so every
subsequent operation — including every failure path of `sendRequest` —
completes without a nil-pointer panic, and behaves identically (same
result, same issued requests and events) to the same client built with
any injected logger; only the side-channel log output differs. -/
theorem claim_C9_nil_logger (e : String) (d : Transport) (lg : Logger)
    (cbid idTag vid md : String) (cid tid : Int) (vs : List MeterValue)
    (st : Ocpp.Status) :
    (NewClient e none d).logger = some Logger.nop ∧
    (∀ {ρ : Type} (action body : String) (dec : String → Option ρ),
      (sendRequest (NewClient e none d) action body dec).toOption.isSome = true ∧
      (sendRequest (NewClient e none d) action body dec).toOption.map
          (fun o => (o.result, o.events))
        = (sendRequest (NewClient e (some lg) d) action body dec).toOption.map
          (fun o => (o.result, o.events))) ∧
    ((BootNotification (NewClient e none d) cbid).toOption.isSome = true ∧
      (BootNotification (NewClient e none d) cbid).toOption.map
          (fun r => (r.response, r.err, r.events))
        = (BootNotification (NewClient e (some lg) d) cbid).toOption.map
          (fun r => (r.response, r.err, r.events))) ∧
    ((Heartbeat (NewClient e none d)).toOption.isSome = true ∧
      (Heartbeat (NewClient e none d)).toOption.map
          (fun r => (r.response, r.err, r.events))
        = (Heartbeat (NewClient e (some lg) d)).toOption.map
          (fun r => (r.response, r.err, r.events))) ∧
    ((Authorize (NewClient e none d) idTag).toOption.isSome = true ∧
      (Authorize (NewClient e none d) idTag).toOption.map
          (fun r => (r.response, r.err, r.events))
        = (Authorize (NewClient e (some lg) d) idTag).toOption.map
          (fun r => (r.response, r.err, r.events))) ∧
    ((StartTransaction (NewClient e none d) cid idTag).toOption.isSome = true ∧
      (StartTransaction (NewClient e none d) cid idTag).toOption.map
          (fun r => (r.response, r.err, r.events))
        = (StartTransaction (NewClient e (some lg) d) cid idTag).toOption.map
          (fun r => (r.response, r.err, r.events))) ∧
    ((StopTransaction (NewClient e none d) tid).toOption.isSome = true ∧
      (StopTransaction (NewClient e none d) tid).toOption.map
          (fun r => (r.response, r.err, r.events))
        = (StopTransaction (NewClient e (some lg) d) tid).toOption.map
          (fun r => (r.response, r.err, r.events))) ∧
    ((MeterValues (NewClient e none d) vs).toOption.isSome = true ∧
      (MeterValues (NewClient e none d) vs).toOption.map
          (fun r => (r.err, r.events))
        = (MeterValues (NewClient e (some lg) d) vs).toOption.map
          (fun r => (r.err, r.events))) ∧
    ((StatusNotification (NewClient e none d) st).toOption.isSome = true ∧
      (StatusNotification (NewClient e none d) st).toOption.map
          (fun r => (r.err, r.events))
        = (StatusNotification (NewClient e (some lg) d) st).toOption.map
          (fun r => (r.err, r.events))) ∧
    ((DataTransfer (NewClient e none d) vid md).toOption.isSome = true ∧
      (DataTransfer (NewClient e none d) vid md).toOption.map
          (fun r => (r.response, r.err, r.events))
        = (DataTransfer (NewClient e (some lg) d) vid md).toOption.map
          (fun r => (r.response, r.err, r.events))) := by
  refine ⟨rfl, ?_, ?_, ?_, ?_, ?_, ?_, ?_, ?_, ?_⟩
  · intro ρ action body dec
    constructor
    · rw [show NewClient e none d = Client.mk e d (some Logger.nop) from rfl,
        sendRequest_eq_core' e d Logger.nop action body dec]
      rfl
    · rw [show NewClient e none d = Client.mk e d (some Logger.nop) from rfl,
        show NewClient e (some lg) d = Client.mk e d (some lg) from rfl,
        sendRequest_eq_core' e d Logger.nop action body dec,
        sendRequest_eq_core' e d lg action body dec]
      rfl
  · exact ⟨wrapResp_isSome e d Logger.nop _ _ _, wrapRespProj_eq e d Logger.nop lg _ _ _⟩
  · exact ⟨wrapResp_isSome e d Logger.nop _ _ _, wrapRespProj_eq e d Logger.nop lg _ _ _⟩
  · exact ⟨wrapResp_isSome e d Logger.nop _ _ _, wrapRespProj_eq e d Logger.nop lg _ _ _⟩
  · exact ⟨wrapResp_isSome e d Logger.nop _ _ _, wrapRespProj_eq e d Logger.nop lg _ _ _⟩
  · exact ⟨wrapResp_isSome e d Logger.nop _ _ _, wrapRespProj_eq e d Logger.nop lg _ _ _⟩
  · exact ⟨wrapErr_isSome e d Logger.nop _ _ _, wrapErrProj_eq e d Logger.nop lg _ _ _⟩
  · exact ⟨wrapErr_isSome e d Logger.nop _ _ _, wrapErrProj_eq e d Logger.nop lg _ _ _⟩
  · exact ⟨wrapResp_isSome e d Logger.nop _ _ _, wrapRespProj_eq e d Logger.nop lg _ _ _⟩

set_option maxRecDepth 1000000 in
/-- Counterexample to C6 as stated: `CurrentTime = "\x00"` is a non-zero
value of an `omitempty` field, and the encoded element does contain the
`currentTime` tag — but carrying U+FFFD (Go's `EscapeText` substitution
for characters outside the XML range), not the original value. -/
theorem claim_C6_counterexample :
    ("\x00" : String) ≠ "" ∧
    docChildData (parseDoc (encodeBootNotificationResponse ⟨"Accepted", "\x00", 0, 0⟩))
      "currentTime" = some "�" ∧
    ¬ docChildData (parseDoc (encodeBootNotificationResponse ⟨"Accepted", "\x00", 0, 0⟩))
      "currentTime" = some "\x00" := by
  refine ⟨by decide, by decide, by decide⟩

/-- C6 (amended): every `omitempty` field of the message shapes
(`BootNotificationResponse.CurrentTime/Interval/Heartbeat`,
`HeartbeatResponse.CurrentTime`, `IdTagInfo.ExpiryDate/ParentIdTag`,
`Status.ErrorCode/StatusDetail`, `DataTransferResponse.Data`) is absent
from the encoded element exactly when it holds its Go zero value, and
present otherwise — carrying the field's value with each character
outside the XML character range replaced by U+FFFD, i.e. exactly the
value whenever its characters are XML-representable (for pointer fields
the zero value is nil; a pointer to the empty string is still emitted,
and integers appear in their base-10 rendering). -/
theorem claim_C6_omitempty (stv ctv dav ecv sdv : String) (iv hb : Int)
    (ed pid : Option String) (edv pidv : String) :
    ((parseDoc (encodeBootNotificationResponse ⟨stv, ctv, iv, hb⟩)).map childTags
      = some ("status" :: ((if ctv = "" then [] else ["currentTime"]) ++
          ((if iv = 0 then [] else ["interval"]) ++
           (if hb = 0 then [] else ["heartbeat"]))))) ∧
    (ctv ≠ "" →
      docChildData (parseDoc (encodeBootNotificationResponse ⟨stv, ctv, iv, hb⟩))
        "currentTime" = some (sanitizeStr ctv)) ∧
    (iv ≠ 0 →
      docChildData (parseDoc (encodeBootNotificationResponse ⟨stv, ctv, iv, hb⟩))
        "interval" = some (intRepr iv)) ∧
    (hb ≠ 0 →
      docChildData (parseDoc (encodeBootNotificationResponse ⟨stv, ctv, iv, hb⟩))
        "heartbeat" = some (intRepr hb)) ∧
    ((parseDoc (encodeHeartbeatResponse ⟨ctv⟩)).map childTags
      = some (if ctv = "" then [] else ["currentTime"])) ∧
    (ctv ≠ "" →
      docChildData (parseDoc (encodeHeartbeatResponse ⟨ctv⟩)) "currentTime"
        = some (sanitizeStr ctv)) ∧
    ((docChild (parseDoc (encodeAuthorizeResponse ⟨⟨stv, ed, pid⟩⟩)) "idTagInfo").map
        childTags
      = some ("status" ::
          ((match ed with
            | none => []
            | some _ => ["expiryDate"]) ++
           (match pid with
            | none => []
            | some _ => ["parentIdTag"])))) ∧
    (docChildData
      (docChild (parseDoc (encodeAuthorizeResponse ⟨⟨stv, some edv, pid⟩⟩)) "idTagInfo")
      "expiryDate" = some (sanitizeStr edv)) ∧
    (docChildData
      (docChild (parseDoc (encodeAuthorizeResponse ⟨⟨stv, ed, some pidv⟩⟩)) "idTagInfo")
      "parentIdTag" = some (sanitizeStr pidv)) ∧
    ((docChild (parseDoc (encodeStatusNotificationRequest ⟨⟨ecv, sdv⟩⟩)) "status").map
        childTags
      = some ((if ecv = "" then [] else ["errorCode"]) ++
          (if sdv = "" then [] else ["statusDetail"]))) ∧
    (ecv ≠ "" →
      docChildData (docChild (parseDoc (encodeStatusNotificationRequest ⟨⟨ecv, sdv⟩⟩))
        "status") "errorCode" = some (sanitizeStr ecv)) ∧
    (sdv ≠ "" →
      docChildData (docChild (parseDoc (encodeStatusNotificationRequest ⟨⟨ecv, sdv⟩⟩))
        "status") "statusDetail" = some (sanitizeStr sdv)) ∧
    ((parseDoc (encodeDataTransferResponse ⟨stv, dav⟩)).map childTags
      = some ("status" :: (if dav = "" then [] else ["data"]))) ∧
    (dav ≠ "" →
      docChildData (parseDoc (encodeDataTransferResponse ⟨stv, dav⟩)) "data"
        = some (sanitizeStr dav)) := by
  refine ⟨?_, ?_, ?_, ?_, ?_, ?_, ?_, ?_, ?_, ?_, ?_, ?_, ?_, ?_⟩
  · rw [parse_encodeBootNotificationResponse stv ctv iv hb]
    by_cases h1 : ctv = "" <;> by_cases h2 : iv = 0 <;> by_cases h3 : hb = 0 <;>
      simp [h1, h2, h3, childTags]
  · intro hne
    have hs : sanitizeStr ctv ≠ "" := fun e => hne ((sanitizeStr_eq_empty_iff ctv).mp e)
    rw [parse_encodeBootNotificationResponse stv ctv iv hb]
    simp [docChildData, childData, childNamed, hne, hs, List.find?, chardata_leafChildren]
  · intro hne
    rw [parse_encodeBootNotificationResponse stv ctv iv hb]
    by_cases h1 : ctv = "" <;>
      simp [docChildData, childData, childNamed, h1, hne, List.find?, chardata_single]
  · intro hne
    rw [parse_encodeBootNotificationResponse stv ctv iv hb]
    by_cases h1 : ctv = "" <;> by_cases h2 : iv = 0 <;>
      simp [docChildData, childData, childNamed, h1, h2, hne, List.find?, chardata_single]
  · rw [parse_encodeHeartbeatResponse ctv]
    by_cases h1 : ctv = "" <;> simp [h1, childTags]
  · intro hne
    have hs : sanitizeStr ctv ≠ "" := fun e => hne ((sanitizeStr_eq_empty_iff ctv).mp e)
    rw [parse_encodeHeartbeatResponse ctv]
    simp [docChildData, childData, childNamed, hne, hs, List.find?, chardata_leafChildren]
  · rw [parse_encodeAuthorizeResponse stv ed pid]
    cases ed <;> cases pid <;>
      simp [docChild, childNamed, childTags, optChildNodes, List.find?]
  · rw [parse_encodeAuthorizeResponse stv (some edv) pid]
    simp [docChild, docChildData, childData, childNamed, optChildNodes, List.find?,
      chardata_leafChildren]
  · rw [parse_encodeAuthorizeResponse stv ed (some pidv)]
    cases ed <;>
      simp [docChild, docChildData, childData, childNamed, optChildNodes, List.find?,
        chardata_leafChildren]
  · rw [parse_encodeStatusNotificationRequest ecv sdv]
    by_cases h1 : ecv = "" <;> by_cases h2 : sdv = "" <;>
      simp [h1, h2, docChild, childNamed, childTags, List.find?]
  · intro hne
    rw [parse_encodeStatusNotificationRequest ecv sdv]
    simp [docChild, docChildData, childData, childNamed, hne, List.find?,
      chardata_leafChildren]
  · intro hne
    rw [parse_encodeStatusNotificationRequest ecv sdv]
    by_cases h1 : ecv = "" <;>
      simp [docChild, docChildData, childData, childNamed, h1, hne, List.find?,
        chardata_leafChildren]
  · rw [parse_encodeDataTransferResponse stv dav]
    by_cases h1 : dav = "" <;> simp [h1, childTags]
  · intro hne
    have hs : sanitizeStr dav ≠ "" := fun e => hne ((sanitizeStr_eq_empty_iff dav).mp e)
    rw [parse_encodeDataTransferResponse stv dav]
    simp [docChildData, childData, childNamed, hne, hs, List.find?, chardata_leafChildren]

set_option maxRecDepth 1000000 in
/-- Witness for C6: zero-valued optional fields leave no tag; non-zero
ones appear with their (XML-representable, hence preserved) value, and a
non-XML-range value appears as U+FFFD. -/
theorem claim_C6_witness :
    ((parseDoc (encodeBootNotificationResponse ⟨"Accepted", "", 0, 7⟩)).map childTags
      = some ["status", "heartbeat"]) ∧
    (docChildData (parseDoc (encodeBootNotificationResponse ⟨"Accepted", "T1", 0, 7⟩))
      "currentTime" = some "T1") ∧
    (docChildData (parseDoc (encodeBootNotificationResponse ⟨"Accepted", "\x00", 0, 0⟩))
      "currentTime" = some "�") ∧
    (docChildData (parseDoc (encodeBootNotificationResponse ⟨"Accepted", "", 0, 7⟩))
      "heartbeat" = some (intRepr 7)) ∧
    ((docChild (parseDoc (encodeAuthorizeResponse ⟨⟨"Accepted", some "", none⟩⟩))
        "idTagInfo").map childTags = some ["status", "expiryDate"]) ∧
    (docChildData
      (docChild (parseDoc (encodeAuthorizeResponse ⟨⟨"Accepted", some "2024", none⟩⟩))
        "idTagInfo") "expiryDate" = some "2024") ∧
    ((parseDoc (encodeDataTransferResponse ⟨"Accepted", ""⟩)).map childTags
      = some ["status"]) := by
  refine ⟨?_, ?_, ?_, ?_, ?_, ?_, ?_⟩
  · have h := (claim_C6_omitempty "Accepted" "" "" "" "" 0 7 none none "" "").1
    simpa using h
  · have h := (claim_C6_omitempty "Accepted" "T1" "" "" "" 0 7 none none "" "").2.1
      (by decide)
    simpa [sanitizeStr, sanitizeL, sanitizeChar, inCharacterRange] using h
  · have h := (claim_C6_omitempty "Accepted" "\x00" "" "" "" 0 0 none none "" "").2.1
      (by decide)
    simpa [sanitizeStr, sanitizeL, sanitizeChar, inCharacterRange] using h
  · have h := (claim_C6_omitempty "Accepted" "" "" "" "" 0 7 none none "" "").2.2.2.1
      (by decide)
    simpa using h
  · have h := (claim_C6_omitempty "Accepted" "" "" "" "" 0 0 (some "") none "" "").2.2.2.2.2.2.1
    simpa using h
  · have h := (claim_C6_omitempty "Accepted" "" "" "" "" 0 0 none none "2024" "").2.2.2.2.2.2.2.1
    simpa [sanitizeStr, sanitizeL, sanitizeChar, inCharacterRange] using h
  · have h := (claim_C6_omitempty "Accepted" "" "" "" "" 0 0 none none "" "").2.2.2.2.2.2.2.2.2.2.2.2.1
    simpa using h

end Ocpp
